import Mathlib

/-!
# XSBench `pgi_refactor/Main.c`: the driver, its set-up and its lookup loop

`Main.c` holds only `main`.  Every function it calls (`read_CLI`, `gpmatrix`,
`generate_grids`, `sort_nuclide_grids`, `generate_energy_grid`, `set_grid_ptrs`,
`binary_read`, `load_*`, `rn`, `rn_v`, `pick_mat`, `calculate_macro_xs`, `hash`, ...)
lives in other translation units, so each of them is a parameter of the
development.  `double` values are an abstract type `R`, the five-component
result vector an abstract type `X`, the nuclide tables an abstract type `T`
and the flat index array an abstract type `P`.

The preprocessor switches are the fields of `Build`.  A C variable that may be
read before it was ever written is a `Var`: its content together with a flag
saying whether an assignment reached it.

The development has three layers.

* The lookup loop on fixed data (`lookupLoop`, `lookupRegion`) and the checksum
  fold (`accumulate`, `checksum`).
* `main` itself (`setup`, `region`, `mainBody`, `main`): every helper call is
  recorded as a `Step` with the arguments it is given, helpers that are handed the
  nuclide tables may write them, and the grid framework of the cache-read build
  is computed with the machine types of the source (`int i`, `long` sizes, the
  `size_t` byte count of `malloc`).
* The verification-mode OpenMP region as a transition system over interleavings
  (`parStep`, `parRun`).
-/

namespace XSBench

/-- Preprocessor switches that select the text of `main`. -/
structure Build where
  verification : Bool
  acc : Bool
  binary_read : Bool
  binary_dump : Bool
deriving DecidableEq, Repr

/-- A local C variable: what it holds and whether it has been assigned. -/
structure Var (α : Type) where
  val : α
  assigned : Bool
deriving DecidableEq, Repr

/-- One entry of the unionized grid: its energy and the offset of its index block. -/
structure GridPoint (R : Type) where
  energy : R
  xs_ptrs : Int
deriving DecidableEq, Repr

/-- The read-only data handed to every `calculate_macro_xs` call (Main.c:230-233). -/
structure Static (R T P : Type) where
  n_isotopes : Int
  n_gridpoints : Int
  num_nucs : List Int
  concs : List R
  energy_grid : List (GridPoint R)
  grid_ptrs : P
  nuclide_grids : T
  mats : List Int
  mats_idx : List Int
deriving DecidableEq, Repr

/-- The functions of other translation units used inside the lookup loop.
`stream k` is the value returned by the `k`-th call (counting from 0) of the
argument-less generator `rn_v`; `rn s` is the value returned by `rn(&seed)` when
`seed = s`, paired with the seed it leaves behind; `digest` is
`hash(line, 10000)` of the line printed from its three arguments. -/
structure Ext (R X T P : Type) where
  stream : Nat → R
  rn : Nat → R × Nat
  pick_mat : R → Int
  calculate_macro_xs : R → Int → Static R T P → X
  digest : R → Int → X → Nat

/-- Modulus of `unsigned long long` (and of `unsigned long` on LP64). -/
def U64 : Nat := 2 ^ 64

/-- Result of an `int` computation whose exact value is `x` (two's complement). -/
def wrapInt (x : Int) : Int := (x + 2 ^ 31) % 2 ^ 32 - 2 ^ 31

/-- Main.c:191, `seed = (thread+1)*19+17;` the `int` value of the right-hand side
converted to `unsigned long`. -/
def seedInit (thread : Int) : Nat := (wrapInt ((thread + 1) * 19 + 17) % (U64 : Int)).toNat

/-- Main.c:251, `vhash += vhash_local;` on `unsigned long long`. -/
def accumulate (vhash vhash_local : Nat) : Nat := (vhash + vhash_local) % U64

/-- The checksum obtained by adding the digests in the order of the list, from
`vhash = 0` (Main.c:20). -/
def checksum (digests : List Nat) : Nat := digests.foldl accumulate 0

/-- Main.c:215-216, the body of the critical section: the next two values of the
shared stream become the energy and (through `pick_mat`) the material; the third
component is the number of `rn_v` calls made afterwards. -/
def critical {R X T P : Type} (x : Ext R X T P) (rnv_calls : Nat) : R × Int × Nat :=
  (x.stream rnv_calls, x.pick_mat (x.stream (rnv_calls + 1)), rnv_calls + 2)

/-- Main.c:230-247, `calculate_macro_xs` followed by `sprintf` and `hash`, stored in
the `unsigned long long vhash_local`. -/
def vhash_local {R X T P : Type} (x : Ext R X T P) (sd : Static R T P) (p_energy : R) (mat : Int) : Nat :=
  x.digest p_energy mat (x.calculate_macro_xs p_energy mat sd) % U64

/-- One recorded call of `calculate_macro_xs`: the trial index and the arguments. -/
structure CallRec (R T P : Type) where
  i : Int
  p_energy : Var R
  mat : Var Int
  data : Static R T P
deriving DecidableEq, Repr

/-- Contents of the stack slots of `thread`, `seed`, `p_energy`, `mat` before any
assignment (Main.c:17-19 declares them without initialiser). -/
structure Junk (R : Type) where
  thread : Int
  seed : Nat
  p_energy : R
  mat : Int

/-- The variables of the parallel region as one worker sees them, together with
a record of what happened: the `calculate_macro_xs` calls, the seeds read by
`rn(&seed)`, and the digests added to `vhash`. -/
structure LoopState (R T P : Type) where
  thread : Var Int
  seed : Var Nat
  p_energy : Var R
  mat : Var Int
  rnv_calls : Nat
  vhash : Nat
  calls : List (CallRec R T P)
  seed_reads : List (Var Nat)
  digests : List Nat

/-- State on entry to the parallel region: `vhash = 0`, nothing else assigned. -/
def LoopState.entry {R T P : Type} (junk : Junk R) : LoopState R T P :=
  { thread := ⟨junk.thread, false⟩, seed := ⟨junk.seed, false⟩,
    p_energy := ⟨junk.p_energy, false⟩, mat := ⟨junk.mat, false⟩,
    rnv_calls := 0, vhash := 0, calls := [], seed_reads := [], digests := [] }

/-- Main.c:188-192: outside the accelerator build the worker records its index
`tid = omp_get_thread_num()` and seeds its generator; with `ACC` this text is
compiled out. -/
def prologue {R T P : Type} (b : Build) (tid : Int) (st : LoopState R T P) : LoopState R T P :=
  if b.acc then st
  else { st with thread := ⟨tid, true⟩, seed := ⟨seedInit tid, true⟩ }

/-- Main.c:210-222: the sampling step of one trial. -/
def sample {R X T P : Type} (b : Build) (x : Ext R X T P) (st : LoopState R T P) : LoopState R T P :=
  if b.verification then
    if b.acc then st
    else
      let c := critical x st.rnv_calls
      { st with p_energy := ⟨c.1, true⟩, mat := ⟨c.2.1, true⟩, rnv_calls := c.2.2 }
  else
    let d1 := x.rn st.seed.val
    let d2 := x.rn d1.2
    { st with p_energy := ⟨d1.1, true⟩, mat := ⟨x.pick_mat d2.1, true⟩,
              seed := ⟨d2.2, true⟩,
              seed_reads := st.seed_reads ++ [st.seed, ⟨d1.2, true⟩] }

/-- Main.c:230-252: the evaluator call and, in verification mode, the digest
added to the checksum. -/
def evaluate {R X T P : Type} (b : Build) (x : Ext R X T P) (sd : Static R T P) (i : Int)
    (st : LoopState R T P) : LoopState R T P :=
  let st1 := { st with calls := st.calls ++ [⟨i, st.p_energy, st.mat, sd⟩] }
  if b.verification then
    let d := vhash_local x sd st1.p_energy.val st1.mat.val
    { st1 with vhash := accumulate st1.vhash d, digests := st1.digests ++ [d] }
  else st1

/-- Main.c:201-253: the body of the lookup loop for index `i`. -/
def trial {R X T P : Type} (b : Build) (x : Ext R X T P) (sd : Static R T P) (i : Int)
    (st : LoopState R T P) : LoopState R T P :=
  evaluate b x sd i (sample b x st)

/-- Main.c:200, `for( i = 0; i < lookups; i++ )` from the current `i`. -/
def lookupLoop {R X T P : Type} (b : Build) (x : Ext R X T P) (sd : Static R T P) (lookups : Int)
    (i : Int) (st : LoopState R T P) : LoopState R T P :=
  if i < lookups then lookupLoop b x sd lookups (i + 1) (trial b x sd i st) else st
termination_by (lookups - i).toNat
decreasing_by omega

/-- Main.c:184-256: the parallel region run by one worker that takes the whole
iteration space in index order. -/
def lookupRegion {R X T P : Type} (b : Build) (x : Ext R X T P) (sd : Static R T P) (lookups : Int)
    (tid : Int) (junk : Junk R) : LoopState R T P :=
  lookupLoop b x sd lookups 0 (prologue b tid (LoopState.entry junk))

/-! ## Set-up of the static data (Main.c:46-121) -/

/-- Largest value of `int`. -/
def INT_MAX : Int := 2 ^ 31 - 1

/-- Result of a `long` computation whose exact value is `x` (two's complement). -/
def wrapLong (x : Int) : Int := (x + 2 ^ 63) % 2 ^ 64 - 2 ^ 63

/-- Conversion of the exact value `x` to a signed integer type of `bits` bits. -/
def wrapBits (bits : Nat) (x : Int) : Int := (x + 2 ^ (bits - 1)) % 2 ^ bits - 2 ^ (bits - 1)

/-- Main.c:160, the extent of the flat index array `grid_ptrs`. -/
def gridPtrsLen (n_isotopes n_gridpoints : Int) : Int := n_isotopes * n_isotopes * n_gridpoints

/-- The values `read_CLI` leaves in `main`'s variables (Main.c:24-27, 46). -/
structure Config where
  nthreads : Int
  n_isotopes : Int
  n_gridpoints : Int
  lookups : Int
deriving DecidableEq, Repr

/-- The functions of other translation units called by `main` besides those of
`Ext`, as functions of their arguments, and what `main` relies on from
`XSbench_header.h` and from the allocator.

A helper that is handed the pointer `nuclide_grids` may write through it, so
`generate_energy_grid` and `set_grid_ptrs` return the tables they leave behind
next to their other results (grid, index array, tables, in this order), and
`calculate_macro_xs_tables e m data` is what a `calculate_macro_xs` call with
energy `e`, material `m` and the data `data` leaves in the tables.

`sizeof_GridPoint` is `sizeof(GridPoint)`, `xs_ptrs_bits` the width of the signed
field `xs_ptrs`; `malloc_ok n` says whether a request of `n` bytes succeeds and
`heap k` is the content of entry `k` of a fresh block. -/
structure Helpers (R T P : Type) where
  gpmatrix : Int → Int → T
  generate_grids : T → Int → Int → T
  generate_grids_v : T → Int → Int → T
  sort_nuclide_grids : T → Int → Int → T
  generate_ptr_grid : Int → Int → P
  generate_energy_grid : Int → Int → T → P → List (GridPoint R) × P × T
  set_grid_ptrs : List (GridPoint R) → T → P → Int → Int → List (GridPoint R) × P × T
  binary_read : Int → Int → T → List (GridPoint R) → P → T × List (GridPoint R) × P
  load_num_nucs : Int → List Int
  load_mats_idx : List Int → List Int
  load_mats : List Int → List Int → Int → Int → List Int
  load_concs : Int → List R
  load_concs_v : Int → List R
  calculate_macro_xs_tables : R → Int → Static R T P → T
  sizeof_GridPoint : Nat
  xs_ptrs_bits : Nat
  malloc_ok : Nat → Bool
  heap : Nat → GridPoint R

/-- Main.c:86-87, the argument of `malloc`: the `long` product converted to
`size_t` and multiplied by `sizeof(GridPoint)` in `size_t` arithmetic. -/
def mallocBytes (sizeof_GridPoint : Nat) (n_isotopes n_gridpoints : Int) : Nat :=
  ((wrapLong (n_isotopes * n_gridpoints) % 2 ^ 64).toNat * sizeof_GridPoint) % 2 ^ 64

/-- Main.c:86-87, the block `malloc` returns, as the list of the entries that may
be accessed through the pointer: as many whole entries as the bytes hold, with
whatever the heap held, and none at all when `malloc` fails and returns `NULL`
(there is no check of the result). -/
def mallocGrid {R T P : Type} (h : Helpers R T P) (n_isotopes n_gridpoints : Int) :
    List (GridPoint R) :=
  if h.malloc_ok (mallocBytes h.sizeof_GridPoint n_isotopes n_gridpoints) then
    (List.range (mallocBytes h.sizeof_GridPoint n_isotopes n_gridpoints
      / h.sizeof_GridPoint)).map h.heap
  else []

/-- The store `energy_grid[i].xs_ptrs = v` for an index inside the block. -/
def writeXsPtrs {R : Type} : List (GridPoint R) → Nat → Int → List (GridPoint R)
  | [], _, _ => []
  | g :: gs, 0, v => { g with xs_ptrs := v } :: gs
  | g :: gs, i + 1, v => g :: writeXsPtrs gs i v

/-- Main.c:88-89, `for( i = 0; i < n_isotopes*n_gridpoints; i++ )
energy_grid[i].xs_ptrs = i*n_isotopes;` from the current value of the `int i`.
The guard compares `i` with the `long` product; the stored value is the `long`
product `i*n_isotopes` converted to the type of `xs_ptrs`; `i++` is `int`
arithmetic.  A store outside the block is undefined behaviour: `none`. -/
def initXsPtrs {R : Type} (xs_ptrs_bits : Nat) (n_isotopes n_gridpoints : Int) (i : Int)
    (grid : List (GridPoint R)) : Option (List (GridPoint R)) :=
  if i < wrapLong (n_isotopes * n_gridpoints) then
    if 0 ≤ i ∧ i.toNat < grid.length then
      initXsPtrs xs_ptrs_bits n_isotopes n_gridpoints (wrapInt (i + 1))
        (writeXsPtrs grid i.toNat (wrapBits xs_ptrs_bits (wrapLong (i * n_isotopes))))
    else none
  else some grid
termination_by (if i < 0 then 0 else if i ≤ 2 ^ 31 - 1 then (2 ^ 31 - i).toNat else 2 ^ 31 + 1)
decreasing_by
  unfold wrapInt
  split_ifs <;> omega

/-- Main.c:86-89, the unionized grid framework of the `BINARY_READ` build. -/
def binaryReadGrid {R T P : Type} (h : Helpers R T P) (n_isotopes n_gridpoints : Int) :
    Option (List (GridPoint R)) :=
  initXsPtrs h.xs_ptrs_bits n_isotopes n_gridpoints 0 (mallocGrid h n_isotopes n_gridpoints)

/-- The index block `[xs_ptrs, xs_ptrs + n_isotopes)` owned by a grid entry. -/
def inBlock {R : Type} (n_isotopes : Int) (g : GridPoint R) (a : Int) : Prop :=
  g.xs_ptrs ≤ a ∧ a < g.xs_ptrs + n_isotopes

/-- Main.c:107-111, `size_mats`. -/
def sizeMats (n_isotopes : Int) : Int := if n_isotopes = 68 then 197 else 484

/-- One step of `main`, with the arguments it is called with (sizes, and the
nuclide tables where the step is handed them). -/
inductive Step (T : Type) where
  | gpmatrix (n_isotopes n_gridpoints : Int)
  | generate_grids (verification : Bool) (tables : T) (n_isotopes n_gridpoints : Int)
  | sort_nuclide_grids (tables : T) (n_isotopes n_gridpoints : Int)
  | generate_ptr_grid (n_isotopes n_gridpoints : Int)
  | generate_energy_grid (n_isotopes n_gridpoints : Int) (tables : T)
  | malloc_energy_grid (n_isotopes n_gridpoints : Int)
  | set_grid_ptrs (tables : T) (n_isotopes n_gridpoints : Int)
  | binary_read (n_isotopes n_gridpoints : Int) (tables : T)
  | load_num_nucs (n_isotopes : Int)
  | load_mats_idx
  | load_mats (size_mats n_isotopes : Int)
  | load_concs (verification : Bool) (size_mats : Int)
  | binary_dump (n_isotopes n_gridpoints : Int) (tables : T)
  | lookup_region (n_isotopes n_gridpoints : Int) (tables : T) (lookups : Int)
  | print_results (n_isotopes n_gridpoints : Int) (lookups : Int) (vhash : Nat)
deriving DecidableEq, Repr

/-- Whether a step is handed the nuclide tables. -/
def Step.usesTables {T : Type} : Step T → Bool
  | .generate_grids _ _ _ _ => true
  | .sort_nuclide_grids _ _ _ => true
  | .generate_energy_grid _ _ _ => true
  | .set_grid_ptrs _ _ _ => true
  | .binary_read _ _ _ => true
  | .binary_dump _ _ _ => true
  | .lookup_region _ _ _ _ => true
  | _ => false

/-- Whether every size a step is called with is the one of the configuration:
`n_isotopes`, `n_gridpoints` and `lookups` as configured, and `size_mats` as
Main.c:107-111 derives it from the configured `n_isotopes`. -/
def Step.sizesAsConfigured {T : Type} (cfg : Config) : Step T → Bool
  | .gpmatrix n g => n = cfg.n_isotopes && g = cfg.n_gridpoints
  | .generate_grids _ _ n g => n = cfg.n_isotopes && g = cfg.n_gridpoints
  | .sort_nuclide_grids _ n g => n = cfg.n_isotopes && g = cfg.n_gridpoints
  | .generate_ptr_grid n g => n = cfg.n_isotopes && g = cfg.n_gridpoints
  | .generate_energy_grid n g _ => n = cfg.n_isotopes && g = cfg.n_gridpoints
  | .malloc_energy_grid n g => n = cfg.n_isotopes && g = cfg.n_gridpoints
  | .set_grid_ptrs _ n g => n = cfg.n_isotopes && g = cfg.n_gridpoints
  | .binary_read n g _ => n = cfg.n_isotopes && g = cfg.n_gridpoints
  | .load_num_nucs n => n = cfg.n_isotopes
  | .load_mats_idx => true
  | .load_mats s n => s = sizeMats cfg.n_isotopes && n = cfg.n_isotopes
  | .load_concs _ s => s = sizeMats cfg.n_isotopes
  | .binary_dump n g _ => n = cfg.n_isotopes && g = cfg.n_gridpoints
  | .lookup_region n g _ l => n = cfg.n_isotopes && g = cfg.n_gridpoints && l = cfg.lookups
  | .print_results n g l _ => n = cfg.n_isotopes && g = cfg.n_gridpoints && l = cfg.lookups

/-! Each call of a helper, paired with the step it is recorded as. -/

/-- Main.c:66. -/
def call_gpmatrix {R T P : Type} (h : Helpers R T P) (n g : Int) : T × Step T :=
  (h.gpmatrix n g, Step.gpmatrix n g)

/-- Main.c:68-72. -/
def call_generate_grids {R T P : Type} (b : Build) (h : Helpers R T P) (t : T) (n g : Int) :
    T × Step T :=
  (if b.verification then h.generate_grids_v t n g else h.generate_grids t n g,
   Step.generate_grids b.verification t n g)

/-- Main.c:77. -/
def call_sort_nuclide_grids {R T P : Type} (h : Helpers R T P) (t : T) (n g : Int) :
    T × Step T :=
  (h.sort_nuclide_grids t n g, Step.sort_nuclide_grids t n g)

/-- Main.c:81. -/
def call_generate_ptr_grid {R T P : Type} (h : Helpers R T P) (n g : Int) : P × Step T :=
  (h.generate_ptr_grid n g, Step.generate_ptr_grid n g)

/-- Main.c:83-84. -/
def call_generate_energy_grid {R T P : Type} (h : Helpers R T P) (n g : Int) (t : T) (p : P) :
    (List (GridPoint R) × P × T) × Step T :=
  (h.generate_energy_grid n g t p, Step.generate_energy_grid n g t)

/-- Main.c:86-89. -/
def call_malloc_energy_grid {R T P : Type} (h : Helpers R T P) (n g : Int) :
    Option (List (GridPoint R)) × Step T :=
  (binaryReadGrid h n g, Step.malloc_energy_grid n g)

/-- Main.c:95. -/
def call_set_grid_ptrs {R T P : Type} (h : Helpers R T P) (grid : List (GridPoint R)) (t : T)
    (p : P) (n g : Int) : (List (GridPoint R) × P × T) × Step T :=
  (h.set_grid_ptrs grid t p n g, Step.set_grid_ptrs t n g)

/-- Main.c:100. -/
def call_binary_read {R T P : Type} (h : Helpers R T P) (n g : Int) (t : T)
    (grid : List (GridPoint R)) (p : P) : (T × List (GridPoint R) × P) × Step T :=
  (h.binary_read n g t grid p, Step.binary_read n g t)

/-- Main.c:113. -/
def call_load_num_nucs {R T P : Type} (h : Helpers R T P) (n : Int) : List Int × Step T :=
  (h.load_num_nucs n, Step.load_num_nucs n)

/-- Main.c:114. -/
def call_load_mats_idx {R T P : Type} (h : Helpers R T P) (num_nucs : List Int) :
    List Int × Step T :=
  (h.load_mats_idx num_nucs, Step.load_mats_idx)

/-- Main.c:115. -/
def call_load_mats {R T P : Type} (h : Helpers R T P) (num_nucs mats_idx : List Int)
    (size_mats n : Int) : List Int × Step T :=
  (h.load_mats num_nucs mats_idx size_mats n, Step.load_mats size_mats n)

/-- Main.c:117-121. -/
def call_load_concs {R T P : Type} (b : Build) (h : Helpers R T P) (size_mats : Int) :
    List R × Step T :=
  (if b.verification then h.load_concs_v size_mats else h.load_concs size_mats,
   Step.load_concs b.verification size_mats)

/-- Main.c:66-72: the nuclide tables as allocated by `gpmatrix` and filled by
`generate_grids_v` (verification) or `generate_grids`. -/
def generatedTables {R T P : Type} (b : Build) (h : Helpers R T P) (cfg : Config) : T :=
  (call_generate_grids b h (call_gpmatrix h cfg.n_isotopes cfg.n_gridpoints).1
    cfg.n_isotopes cfg.n_gridpoints).1

/-- Main.c:77: the generated tables after `sort_nuclide_grids`. -/
def sortedTables {R T P : Type} (b : Build) (h : Helpers R T P) (cfg : Config) : T :=
  (call_sort_nuclide_grids h (generatedTables b h cfg) cfg.n_isotopes cfg.n_gridpoints).1

/-- Main.c:83-84: grid, index array and tables as `generate_energy_grid` leaves
them when called on the sorted tables. -/
def unionized {R T P : Type} (b : Build) (h : Helpers R T P) (cfg : Config) :
    List (GridPoint R) × P × T :=
  (call_generate_energy_grid h cfg.n_isotopes cfg.n_gridpoints (sortedTables b h cfg)
    (call_generate_ptr_grid (T := T) h cfg.n_isotopes cfg.n_gridpoints).1).1

/-- Main.c:95: grid, index array and tables as `set_grid_ptrs` leaves them. -/
def doubleIndexed {R T P : Type} (b : Build) (h : Helpers R T P) (cfg : Config) :
    List (GridPoint R) × P × T :=
  (call_set_grid_ptrs h (unionized b h cfg).1 (unionized b h cfg).2.2 (unionized b h cfg).2.1
    cfg.n_isotopes cfg.n_gridpoints).1

/-- What the grid phase leaves behind: the steps taken and, unless a store went
outside the allocated block, the tables, the unionized grid and the index array. -/
structure GridPhase (R T P : Type) where
  trace : List (Step T)
  result : Option (T × List (GridPoint R) × P)

/-- Main.c:61-101: allocation and filling of the nuclide tables, then either
sorting, the unionized grid and double indexing, or (in the `BINARY_READ` build)
the grid framework and the cache read. -/
def gridPhase {R T P : Type} (b : Build) (h : Helpers R T P) (cfg : Config) : GridPhase R T P :=
  let n := cfg.n_isotopes
  let g := cfg.n_gridpoints
  let c0 := call_gpmatrix h n g
  let c1 := call_generate_grids b h c0.1 n g
  if b.binary_read then
    let c3 := call_generate_ptr_grid h n g
    let c4 := call_malloc_energy_grid h n g
    match c4.1 with
    | none => { trace := [c0.2, c1.2, c3.2, c4.2], result := none }
    | some grid =>
      let c6 := call_binary_read h n g c1.1 grid c3.1
      { trace := [c0.2, c1.2, c3.2, c4.2, c6.2], result := some c6.1 }
  else
    let c2 := call_sort_nuclide_grids h c1.1 n g
    let c3 := call_generate_ptr_grid h n g
    let c4 := call_generate_energy_grid h n g c2.1 c3.1
    let c5 := call_set_grid_ptrs h c4.1.1 c4.1.2.2 c4.1.2.1 n g
    { trace := [c0.2, c1.2, c2.2, c3.2, c4.2, c5.2],
      result := some (c5.1.2.2, c5.1.1, c5.1.2.1) }

/-- What set-up leaves behind: the steps taken and, unless the grid phase ran
into undefined behaviour, the static data. -/
structure Setup (R T P : Type) where
  trace : List (Step T)
  data : Option (Static R T P)

/-- Main.c:61-121: the grid phase followed by the material data. -/
def setup {R T P : Type} (b : Build) (h : Helpers R T P) (cfg : Config) : Setup R T P :=
  let gp := gridPhase b h cfg
  match gp.result with
  | none => { trace := gp.trace, data := none }
  | some tgp =>
    let size_mats := sizeMats cfg.n_isotopes
    let c7 := call_load_num_nucs h cfg.n_isotopes
    let c8 := call_load_mats_idx h c7.1
    let c9 := call_load_mats h c7.1 c8.1 size_mats cfg.n_isotopes
    let c10 := call_load_concs b h size_mats
    { trace := gp.trace ++ [c7.2, c8.2, c9.2, c10.2],
      data := some
        { n_isotopes := cfg.n_isotopes, n_gridpoints := cfg.n_gridpoints, num_nucs := c7.1,
          concs := c10.1, energy_grid := tgp.2.1, grid_ptrs := tgp.2.2,
          nuclide_grids := tgp.1, mats := c9.1, mats_idx := c8.1 } }

/-! ## The lookup region inside `main` -/

/-- The worker's view of the region together with the current content of the
nuclide tables. -/
structure RegionState (R T P : Type) where
  loop : LoopState R T P
  tables : T

/-- Main.c:201-253 inside `main`: one trial on the data as the tables currently
are, and the tables as the `calculate_macro_xs` call leaves them. -/
def regionTrial {R X T P : Type} (b : Build) (h : Helpers R T P) (x : Ext R X T P)
    (sd : Static R T P) (i : Int) (rs : RegionState R T P) : RegionState R T P :=
  { loop := trial b x { sd with nuclide_grids := rs.tables } i rs.loop,
    tables := h.calculate_macro_xs_tables (sample b x rs.loop).p_energy.val
      (sample b x rs.loop).mat.val { sd with nuclide_grids := rs.tables } }

/-- Main.c:200, the lookup loop inside `main`, from the current `i`. -/
def regionLoop {R X T P : Type} (b : Build) (h : Helpers R T P) (x : Ext R X T P)
    (sd : Static R T P) (lookups : Int) (i : Int) (rs : RegionState R T P) :
    RegionState R T P :=
  if i < lookups then regionLoop b h x sd lookups (i + 1) (regionTrial b h x sd i rs) else rs
termination_by (lookups - i).toNat
decreasing_by omega

/-- Main.c:184-256 inside `main`: the parallel region run by one worker that takes
the whole iteration space in index order. -/
def region {R X T P : Type} (b : Build) (h : Helpers R T P) (x : Ext R X T P)
    (sd : Static R T P) (lookups : Int) (tid : Int) (junk : Junk R) : RegionState R T P :=
  regionLoop b h x sd lookups 0
    { loop := prologue b tid (LoopState.entry junk), tables := sd.nuclide_grids }

/-- Which input `read_CLI` reports as invalid. -/
inductive CliError where
  | nthreads
  | n_isotopes
  | n_gridpoints
  | lookups
deriving DecidableEq, Repr

/-- How `main` ends: with the fatal report of `read_CLI` (Main.c:46), in
undefined behaviour during set-up (Main.c:89), after the dump (Main.c:127), or
after `print_results` (Main.c:265-272).  The text of `main` has no other exit. -/
inductive Outcome where
  | fatal (e : CliError)
  | undefined
  | dumped
  | reported (vhash : Nat)
deriving DecidableEq, Repr

/-- A run of `main`: the steps taken, the state of the lookup region at the exit
of its loop (when the loop was reached) and the way `main` ended. -/
structure MainResult (R T P : Type) where
  trace : List (Step T)
  loop : Option (RegionState R T P)
  outcome : Outcome

/-- The `calculate_macro_xs` calls made in a run of `main`. -/
def MainResult.calls {R T P : Type} (r : MainResult R T P) : List (CallRec R T P) :=
  match r.loop with
  | none => []
  | some rs => rs.loop.calls

/-- Main.c:48-273, `main` from the values `cfg` that `read_CLI` left in its
variables: set-up, then either the dump and `return 0`, or the lookup region and
`print_results`. -/
def mainBody {R X T P : Type} (b : Build) (h : Helpers R T P) (x : Ext R X T P) (cfg : Config)
    (tid : Int) (junk : Junk R) : MainResult R T P :=
  let s := setup b h cfg
  match s.data with
  | none => { trace := s.trace, loop := none, outcome := Outcome.undefined }
  | some sd =>
    if b.binary_dump then
      { trace := s.trace
          ++ [Step.binary_dump cfg.n_isotopes cfg.n_gridpoints sd.nuclide_grids],
        loop := none, outcome := Outcome.dumped }
    else
      let rs := region b h x sd cfg.lookups tid junk
      { trace := s.trace
          ++ [Step.lookup_region sd.n_isotopes sd.n_gridpoints sd.nuclide_grids cfg.lookups,
              Step.print_results cfg.n_isotopes cfg.n_gridpoints cfg.lookups rs.loop.vhash],
        loop := some rs, outcome := Outcome.reported rs.loop.vhash }

/-- Modelled from the spec: the bodies of `generate_energy_grid`, `set_grid_ptrs`
and `calculate_macro_xs` are outside `src/`.  The spec (section 3: the nuclide
tables are "immutable after construction", "no lookup mutates shared state except
an optional associative accumulator"; section 4.2: after sorting "tables are never
mutated again") has them leave the nuclide tables as they find them. -/
def TablesReadOnly {R T P : Type} (h : Helpers R T P) : Prop :=
  (∀ n g t p, (h.generate_energy_grid n g t p).2.2 = t)
  ∧ (∀ grid t p n g, (h.set_grid_ptrs grid t p n g).2.2 = t)
  ∧ (∀ e m sd, h.calculate_macro_xs_tables e m sd = sd.nuclide_grids)

/-! ## The verification-mode OpenMP region under arbitrary interleavings

In the build with `VERIFICATION` and without `ACC` a trial synchronises with the
other workers twice: in the `omp critical` section (Main.c:213-217) and in the
`omp atomic` update (Main.c:249-251).  Everything between the two touches only
private variables and read-only data.  An execution is therefore a sequence of
events, each being one of these two actions done by one worker. -/

/-- The private variables of one worker and whether it is between its critical
section and its atomic update. -/
structure Worker (R : Type) where
  p_energy : Var R
  mat : Var Int
  pending : Bool
deriving DecidableEq, Repr

/-- The workers, the shared stream position, the shared checksum, and the trial
indices handed out so far. -/
structure ParState (R : Type) where
  workers : List (Worker R)
  rnv_calls : Nat
  vhash : Nat
  started : List Int
deriving DecidableEq, Repr

/-- An event: worker `w` takes trial `i` and passes the critical section, or
worker `w` evaluates, hashes and adds its digest atomically. -/
inductive Event where
  | enter (w : Nat) (i : Int)
  | add (w : Nat)
deriving DecidableEq, Repr

/-- Entry to the parallel region with `nworkers` workers. -/
def ParState.init {R : Type} (junk : Junk R) (nworkers : Nat) : ParState R :=
  { workers := List.replicate nworkers ⟨⟨junk.p_energy, false⟩, ⟨junk.mat, false⟩, false⟩,
    rnv_calls := 0, vhash := 0, started := [] }

/-- One event; `none` when the event is not possible in the state (no such
worker, worker in the wrong phase, index outside `0..lookups-1` or taken). -/
def parStep {R X T P : Type} (x : Ext R X T P) (sd : Static R T P) (lookups : Int)
    (st : ParState R) : Event → Option (ParState R)
  | Event.enter w i =>
    match st.workers[w]? with
    | none => none
    | some wk =>
      if wk.pending = false ∧ 0 ≤ i ∧ i < lookups ∧ i ∉ st.started then
        let c := critical x st.rnv_calls
        some { st with workers := st.workers.set w ⟨⟨c.1, true⟩, ⟨c.2.1, true⟩, true⟩,
                       rnv_calls := c.2.2, started := i :: st.started }
      else none
  | Event.add w =>
    match st.workers[w]? with
    | none => none
    | some wk =>
      if wk.pending = true then
        some { st with workers := st.workers.set w { wk with pending := false },
                       vhash := accumulate st.vhash
                         (vhash_local x sd wk.p_energy.val wk.mat.val) }
      else none

/-- A sequence of events. -/
def parRun {R X T P : Type} (x : Ext R X T P) (sd : Static R T P) (lookups : Int) :
    ParState R → List Event → Option (ParState R)
  | st, [] => some st
  | st, e :: es =>
    match parStep x sd lookups st e with
    | none => none
    | some st1 => parRun x sd lookups st1 es

/-- The region is finished: every index `0..lookups-1` was handed out and no
worker still owes its atomic update. -/
def ParState.finished {R : Type} (lookups : Int) (st : ParState R) : Bool :=
  st.workers.all (fun wk => !wk.pending)
  && (List.range lookups.toNat).all (fun k => decide ((k : Int) ∈ st.started))

/-- The digest of the trial that is the `k`-th to pass the critical section. -/
def streamDigest {R X T P : Type} (x : Ext R X T P) (sd : Static R T P) (k : Nat) : Nat :=
  vhash_local x sd (x.stream (2 * k)) (x.pick_mat (x.stream (2 * k + 1)))

/-- The sum of the first `n` stream digests. -/
def streamSum {R X T P : Type} (x : Ext R X T P) (sd : Static R T P) (n : Nat) : Nat :=
  ((List.range n).map (streamDigest x sd)).sum

/-- The schedule in which worker 0 alone takes the trials `k, k+1, ..., k+m-1`
one after the other. -/
def seqSchedule : Nat → Nat → List Event
  | _, 0 => []
  | k, m + 1 => Event.enter 0 (Int.ofNat k) :: Event.add 0 :: seqSchedule (k + 1) m

/-- The digests that the workers between critical section and atomic update
still owe to the checksum, summed. -/
def pendingSum {R X T P : Type} (x : Ext R X T P) (sd : Static R T P) (ws : List (Worker R)) : Nat :=
  (ws.map (fun wk => if wk.pending then vhash_local x sd wk.p_energy.val wk.mat.val else 0)).sum

/-- The invariant of the interleaved region: indices are handed out once and
inside `0..lookups-1`, two stream values are consumed per started trial, and the
checksum together with the digests still owed is, modulo 2^64, the sum of the
stream digests of the started trials. -/
def ParInv {R X T P : Type} (x : Ext R X T P) (sd : Static R T P) (lookups : Int)
    (st : ParState R) : Prop :=
  st.started.Nodup
  ∧ (∀ i ∈ st.started, 0 ≤ i ∧ i < lookups)
  ∧ st.rnv_calls = 2 * st.started.length
  ∧ (st.vhash + pendingSum x sd st.workers) % U64 = streamSum x sd st.started.length % U64
  ∧ st.vhash < U64

/-! ## Concrete instances used to run the definitions -/

/-- A toy instance of the external functions over `Nat`: the stream is
`3k+1`, `rn` steps the seed by one, the material is the draw modulo 12, the
evaluator adds energy and material, and the digest mixes its arguments. -/
def toyExt : Ext Nat Nat Nat Nat :=
  { stream := fun k => 3 * k + 1,
    rn := fun s => (s % 7, s + 1),
    pick_mat := fun r => (r % 12 : Nat),
    calculate_macro_xs := fun e m _ => e + m.toNat,
    digest := fun e m v => (e + 2 * m.toNat + 3 * v) % 10000 }

/-- A toy instance of the helpers: tables are numbers, generation adds 1 (2 in
verification mode), sorting multiplies by 10, nothing later writes the tables;
grid entries take 16 bytes, `xs_ptrs` has 32 bits, and the allocator serves
requests up to 2^20 bytes. -/
def toyHelpers : Helpers Nat Nat Nat :=
  { gpmatrix := fun a b => (a * b).toNat,
    generate_grids := fun t _ _ => t + 1,
    generate_grids_v := fun t _ _ => t + 2,
    sort_nuclide_grids := fun t _ _ => 10 * t,
    generate_ptr_grid := fun a b => (a * a * b).toNat,
    generate_energy_grid := fun _ _ t p => ([⟨t, 0⟩], p, t),
    set_grid_ptrs := fun g t p _ _ => (g, p + 1, t),
    binary_read := fun _ _ t g p => (t + 100, g, p),
    load_num_nucs := fun n => [n],
    load_mats_idx := fun l => l,
    load_mats := fun _ _ s _ => [s],
    load_concs := fun s => [s.toNat],
    load_concs_v := fun s => [s.toNat + 1],
    calculate_macro_xs_tables := fun _ _ sd => sd.nuclide_grids,
    sizeof_GridPoint := 16,
    xs_ptrs_bits := 32,
    malloc_ok := fun n => decide (n ≤ 2 ^ 20),
    heap := fun k => ⟨k + 7, -1⟩ }

/-- The toy helpers with an allocator that serves nothing but empty requests. -/
def toyHelpersNoHeap : Helpers Nat Nat Nat :=
  { toyHelpers with malloc_ok := fun n => decide (n = 0) }

/-- The toy helpers, except that `generate_energy_grid` overwrites the tables it
is handed. -/
def toyHelpersWriting : Helpers Nat Nat Nat :=
  { toyHelpers with generate_energy_grid := fun _ _ t p => ([⟨t, 0⟩], p, 0) }

/-- Toy static data. -/
def toyStatic : Static Nat Nat Nat :=
  { n_isotopes := 2, n_gridpoints := 3, num_nucs := [], concs := [], energy_grid := [],
    grid_ptrs := 0, nuclide_grids := 0, mats := [], mats_idx := [] }

/-- Toy stack garbage. -/
def toyJunk : Junk Nat := { thread := 5, seed := 99, p_energy := 77, mat := -3 }

/-! ## Facts about the lookup loop and the checksum fold -/

section Proofs

variable {R X T P : Type}

theorem lookupLoop_step (b : Build) (x : Ext R X T P) (sd : Static R T P) (lookups i : Int)
    (st : LoopState R T P) (h : i < lookups) :
    lookupLoop b x sd lookups i st = lookupLoop b x sd lookups (i + 1) (trial b x sd i st) := by
  rw [lookupLoop, if_pos h]

theorem lookupLoop_exit (b : Build) (x : Ext R X T P) (sd : Static R T P) (lookups i : Int)
    (st : LoopState R T P) (h : ¬ i < lookups) :
    lookupLoop b x sd lookups i st = st := by
  rw [lookupLoop, if_neg h]

/-- Loop rule: a property indexed by the number of finished trials that holds on
entry and is kept by every trial whose index passes the loop guard holds at
loop exit for the index `max k lookups`. -/
theorem lookupLoop_rule (b : Build) (x : Ext R X T P) (sd : Static R T P) (lookups : Int)
    (Inv : Nat → LoopState R T P → Prop)
    (hs : ∀ (k : Nat) (s : LoopState R T P), (k : Int) < lookups → Inv k s →
      Inv (k + 1) (trial b x sd k s)) :
    ∀ (n k : Nat) (st : LoopState R T P), (lookups - k).toNat = n → Inv k st →
      Inv (max k lookups.toNat) (lookupLoop b x sd lookups k st) := by
  intro n
  induction n with
  | zero =>
    intro k st hn h0
    have hk : ¬ (k : Int) < lookups := by omega
    rw [lookupLoop_exit b x sd lookups k st hk]
    have : max k lookups.toNat = k := by
      apply max_eq_left
      omega
    rw [this]
    exact h0
  | succ n ih =>
    intro k st hn h0
    have hk : (k : Int) < lookups := by omega
    rw [lookupLoop_step b x sd lookups k st hk]
    have h1 := ih (k + 1) (trial b x sd k st) (by push_cast; omega) (hs k st hk h0)
    have e : max (k + 1) lookups.toNat = max k lookups.toNat := by
      rw [max_eq_right (by omega), max_eq_right (by omega)]
    rw [e] at h1
    exact_mod_cast h1

/-- The loop rule for the whole loop, started at `i = 0`. -/
theorem lookupLoop_invariant (b : Build) (x : Ext R X T P) (sd : Static R T P) (lookups : Int)
    (Inv : Nat → LoopState R T P → Prop) (st : LoopState R T P) (h0 : Inv 0 st)
    (hs : ∀ (k : Nat) (s : LoopState R T P), (k : Int) < lookups → Inv k s →
      Inv (k + 1) (trial b x sd k s)) :
    Inv lookups.toNat (lookupLoop b x sd lookups 0 st) := by
  have h := lookupLoop_rule b x sd lookups Inv hs (lookups - (0 : Nat)).toNat 0 st rfl h0
  simpa using h

theorem accumulate_lt (v d : Nat) : accumulate v d < U64 := by
  unfold accumulate
  exact Nat.mod_lt _ (by unfold U64; norm_num)

theorem checksum_snoc (ds : List Nat) (d : Nat) :
    checksum (ds ++ [d]) = accumulate (checksum ds) d := by
  simp [checksum, List.foldl_append]

theorem foldl_accumulate_mod (ds : List Nat) (v : Nat) :
    ds.foldl accumulate v % U64 = (v + ds.sum) % U64 := by
  induction ds generalizing v with
  | nil => simp
  | cons d ds ih =>
    simp only [List.foldl_cons, List.sum_cons]
    rw [ih, accumulate, Nat.mod_add_mod, Nat.add_assoc]

theorem foldl_accumulate_lt (ds : List Nat) (v : Nat) (hv : v < U64) :
    ds.foldl accumulate v < U64 := by
  induction ds generalizing v with
  | nil => simpa using hv
  | cons d ds ih => exact ih _ (accumulate_lt v d)

theorem checksum_eq_sum_mod (ds : List Nat) : checksum ds = ds.sum % U64 := by
  have h := foldl_accumulate_mod ds 0
  have hl := foldl_accumulate_lt ds 0 (by unfold U64; norm_num)
  rw [Nat.mod_eq_of_lt hl] at h
  simpa [checksum] using h

theorem evaluate_calls (b : Build) (x : Ext R X T P) (sd : Static R T P) (i : Int)
    (st : LoopState R T P) :
    (evaluate b x sd i st).calls = st.calls ++ [⟨i, st.p_energy, st.mat, sd⟩] := by
  unfold evaluate
  cases b.verification <;> simp

theorem evaluate_digests_on (b : Build) (x : Ext R X T P) (sd : Static R T P) (i : Int)
    (st : LoopState R T P) (hv : b.verification = true) :
    (evaluate b x sd i st).digests = st.digests ++ [vhash_local x sd st.p_energy.val st.mat.val]
    ∧ (evaluate b x sd i st).vhash
        = accumulate st.vhash (vhash_local x sd st.p_energy.val st.mat.val) := by
  unfold evaluate
  simp [hv]

theorem evaluate_digests_off (b : Build) (x : Ext R X T P) (sd : Static R T P) (i : Int)
    (st : LoopState R T P) (hv : b.verification = false) :
    (evaluate b x sd i st).digests = st.digests ∧ (evaluate b x sd i st).vhash = st.vhash := by
  unfold evaluate
  simp [hv]

theorem sample_keeps (b : Build) (x : Ext R X T P) (st : LoopState R T P) :
    (sample b x st).calls = st.calls ∧ (sample b x st).digests = st.digests
    ∧ (sample b x st).vhash = st.vhash := by
  unfold sample
  cases b.verification <;> cases b.acc <;> simp

theorem vhash_local_lt (x : Ext R X T P) (sd : Static R T P) (e : R) (m : Int) :
    vhash_local x sd e m < U64 := by
  unfold vhash_local
  exact Nat.mod_lt _ (by unfold U64; norm_num)

/-- At loop exit the checksum is the fold of the recorded digests. -/
theorem lookupRegion_vhash (b : Build) (x : Ext R X T P) (sd : Static R T P) (lookups tid : Int)
    (junk : Junk R) :
    (lookupRegion b x sd lookups tid junk).vhash
      = checksum (lookupRegion b x sd lookups tid junk).digests := by
  unfold lookupRegion
  refine lookupLoop_invariant b x sd lookups (fun _ s => s.vhash = checksum s.digests) _ ?_ ?_
  · unfold prologue LoopState.entry
    cases b.acc <;> simp [checksum]
  · intro k s _ hk
    unfold trial
    obtain ⟨_, h2, h3⟩ := sample_keeps b x s
    cases hv : b.verification
    · obtain ⟨e1, e2⟩ := evaluate_digests_off b x sd k (sample b x s) hv
      rw [e1, e2, h2, h3]
      exact hk
    · obtain ⟨e1, e2⟩ := evaluate_digests_on b x sd k (sample b x s) hv
      rw [e1, e2, checksum_snoc, h2, h3, hk]



/-- The trial indices of the recorded calls are `0, 1, ..., lookups-1` and one
digest is recorded per trial exactly in verification mode. -/
theorem lookupRegion_counts (b : Build) (x : Ext R X T P) (sd : Static R T P) (lookups tid : Int)
    (junk : Junk R) :
    (lookupRegion b x sd lookups tid junk).calls.map (fun c => c.i)
        = (List.range lookups.toNat).map Int.ofNat
    ∧ (lookupRegion b x sd lookups tid junk).digests.length
        = if b.verification then lookups.toNat else 0 := by
  unfold lookupRegion
  refine lookupLoop_invariant b x sd lookups
    (fun k s => s.calls.map (fun c => c.i) = (List.range k).map Int.ofNat
      ∧ s.digests.length = if b.verification then k else 0) _ ?_ ?_
  · unfold prologue LoopState.entry
    cases b.acc <;> simp
  · intro k s _ hk
    obtain ⟨hc, hd⟩ := hk
    unfold trial
    obtain ⟨h1, h2, _⟩ := sample_keeps b x s
    constructor
    · rw [evaluate_calls, h1, List.map_append, hc, List.range_succ, List.map_append]
      simp
    · cases hv : b.verification
      · rw [(evaluate_digests_off b x sd k (sample b x s) hv).1, h2, hd]
        simp [hv]
      · rw [(evaluate_digests_on b x sd k (sample b x s) hv).1, h2, List.length_append, hd]
        simp [hv]

/-- In verification mode every recorded digest is the `vhash_local` of the
arguments of the corresponding `calculate_macro_xs` call, in the same order. -/
theorem lookupRegion_digests (b : Build) (x : Ext R X T P) (sd : Static R T P) (lookups tid : Int)
    (junk : Junk R) (hv : b.verification = true) :
    (lookupRegion b x sd lookups tid junk).digests
      = (lookupRegion b x sd lookups tid junk).calls.map
          (fun c => vhash_local x sd c.p_energy.val c.mat.val) := by
  unfold lookupRegion
  refine lookupLoop_invariant b x sd lookups
    (fun _ s => s.digests = s.calls.map (fun c => vhash_local x sd c.p_energy.val c.mat.val))
    _ ?_ ?_
  · unfold prologue LoopState.entry
    cases b.acc <;> simp
  · intro k s _ hk
    unfold trial
    obtain ⟨h1, h2, _⟩ := sample_keeps b x s
    rw [(evaluate_digests_on b x sd k (sample b x s) hv).1, evaluate_calls, h1, h2, hk]
    simp

theorem checksum_perm (ds ds' : List Nat) (hp : ds.Perm ds') : checksum ds = checksum ds' := by
  rw [checksum_eq_sum_mod, checksum_eq_sum_mod, hp.sum_eq]

/-- Every recorded digest is a value of `vhash_local`. -/
theorem lookupRegion_digests_bound (b : Build) (x : Ext R X T P) (sd : Static R T P)
    (lookups tid : Int) (junk : Junk R) (B : Nat)
    (hB : ∀ e m, vhash_local x sd e m ≤ B) :
    ∀ d ∈ (lookupRegion b x sd lookups tid junk).digests, d ≤ B := by
  unfold lookupRegion
  refine lookupLoop_invariant b x sd lookups (fun _ s => ∀ d ∈ s.digests, d ≤ B) _ ?_ ?_
  · unfold prologue LoopState.entry
    cases b.acc <;> simp
  · intro k s _ hk
    unfold trial
    obtain ⟨_, h2, _⟩ := sample_keeps b x s
    cases hv : b.verification
    · rw [(evaluate_digests_off b x sd k (sample b x s) hv).1, h2]
      exact hk
    · rw [(evaluate_digests_on b x sd k (sample b x s) hv).1, h2]
      intro d hd
      rcases List.mem_append.1 hd with h | h
      · exact hk d h
      · rw [List.mem_singleton.1 h]
        exact hB _ _

theorem sum_le_of_forall_le (ds : List Nat) (B : Nat) (h : ∀ d ∈ ds, d ≤ B) :
    ds.sum ≤ B * ds.length := by
  induction ds with
  | nil => simp
  | cons d ds ih =>
    simp only [List.sum_cons, List.length_cons]
    have h1 := h d (List.mem_cons_self _ _)
    have h2 := ih (fun e he => h e (List.mem_cons_of_mem _ he))
    calc d + ds.sum ≤ B + B * ds.length := Nat.add_le_add h1 h2
      _ = B * (ds.length + 1) := by ring


/-! ## The claims about the lookup loop and the checksum -/

/-- Claim C1: in verification mode the checksum at loop exit is the sum modulo 2^64 of
the per-trial digests `vhash_local`, accumulated from 0, and the accumulated
checksum of a list of digests is the same for every permutation of the list. -/
theorem C1_checksum_is_order_independent_sum (b : Build) (x : Ext R X T P) (sd : Static R T P)
    (lookups tid : Int) (junk : Junk R) (ds ds' : List Nat)
    (hv : b.verification = true) (hp : ds.Perm ds') :
    (lookupRegion b x sd lookups tid junk).digests
        = (lookupRegion b x sd lookups tid junk).calls.map
            (fun c => vhash_local x sd c.p_energy.val c.mat.val)
    ∧ (lookupRegion b x sd lookups tid junk).vhash
        = checksum (lookupRegion b x sd lookups tid junk).digests
    ∧ (lookupRegion b x sd lookups tid junk).vhash
        = (lookupRegion b x sd lookups tid junk).digests.sum % 2 ^ 64
    ∧ checksum [] = 0
    ∧ checksum ds = ds.sum % 2 ^ 64
    ∧ checksum ds = checksum ds' := by
  refine ⟨lookupRegion_digests b x sd lookups tid junk hv,
    lookupRegion_vhash b x sd lookups tid junk, ?_, rfl, checksum_eq_sum_mod ds,
    checksum_perm ds ds' hp⟩
  rw [lookupRegion_vhash, checksum_eq_sum_mod]
  rfl

/-- Witness of claim C1 on the toy instance, three trials, digests `[5, 7, 9]` reordered. -/
theorem C1_checksum_is_order_independent_sum_witness :
    (lookupRegion ⟨true, false, false, false⟩ toyExt toyStatic 3 0 toyJunk).vhash
        = (lookupRegion ⟨true, false, false, false⟩ toyExt toyStatic 3 0 toyJunk).digests.sum
            % 2 ^ 64
    ∧ checksum [5, 7, 9] = checksum [9, 5, 7] :=
  have h := C1_checksum_is_order_independent_sum ⟨true, false, false, false⟩ toyExt toyStatic
    3 0 toyJunk [5, 7, 9] [9, 5, 7] rfl (by decide)
  ⟨h.2.2.1, h.2.2.2.2.2⟩

/-- Claim C10 fails as stated for negative `lookups`: with `lookups = -1` (a 32-bit
`int`) and digests below 10000 the checksum is 0, which is not at most
`9999 * lookups = -9999`. -/
theorem C10_negative_lookups_counterexample :
    (∀ e m v, toyExt.digest e m v < 10000)
    ∧ (-(2 : Int) ^ 31 ≤ -1 ∧ (-1 : Int) < 2 ^ 31)
    ∧ (lookupRegion ⟨true, false, false, false⟩ toyExt toyStatic (-1) 0 toyJunk).vhash = 0
    ∧ ¬ (((lookupRegion ⟨true, false, false, false⟩ toyExt toyStatic (-1) 0 toyJunk).vhash : Int)
          ≤ 9999 * (-1)) := by
  have hz : (lookupRegion ⟨true, false, false, false⟩ toyExt toyStatic (-1) 0 toyJunk).vhash
      = 0 := by
    simp [lookupRegion, lookupLoop, prologue, LoopState.entry]
  refine ⟨?_, by decide, hz, ?_⟩
  · intro e m v
    exact Nat.mod_lt _ (by norm_num)
  · rw [hz]
    decide

/-- Claim C10 (amended): if every digest returned by `hash(line, 10000)` is below 10000
and `lookups` is a 32-bit signed `int`, the checksum never wraps: at loop exit
`vhash` is the exact sum of the digests and
`vhash <= 9999 * max(lookups, 0) < 2^64`. -/
theorem C10_checksum_never_wraps (b : Build) (x : Ext R X T P) (sd : Static R T P)
    (lookups tid : Int) (junk : Junk R)
    (hd : ∀ e m v, x.digest e m v < 10000)
    (hlo : -(2 : Int) ^ 31 ≤ lookups) (hhi : lookups < 2 ^ 31) :
    (lookupRegion b x sd lookups tid junk).vhash
        = (lookupRegion b x sd lookups tid junk).digests.sum
    ∧ ((lookupRegion b x sd lookups tid junk).vhash : Int) ≤ 9999 * max lookups 0
    ∧ 9999 * max lookups 0 < (2 : Int) ^ 64 := by
  have hB : ∀ e m, vhash_local x sd e m ≤ 9999 := by
    intro e m
    have := hd e m (x.calculate_macro_xs e m sd)
    unfold vhash_local
    have h2 := Nat.mod_le (x.digest e m (x.calculate_macro_xs e m sd)) U64
    omega
  have hs := sum_le_of_forall_le _ 9999
    (lookupRegion_digests_bound b x sd lookups tid junk 9999 hB)
  have hlen := (lookupRegion_counts b x sd lookups tid junk).2
  have hlen2 : (lookupRegion b x sd lookups tid junk).digests.length ≤ lookups.toNat := by
    rw [hlen]
    split <;> omega
  have hsum : (lookupRegion b x sd lookups tid junk).digests.sum ≤ 9999 * lookups.toNat :=
    le_trans hs (Nat.mul_le_mul_left _ hlen2)
  have hmax : ((lookups.toNat : Nat) : Int) = max lookups 0 := by
    rw [Int.toNat_eq_max]
  have hnat : lookups.toNat < 2 ^ 31 := by omega
  have hv : (lookupRegion b x sd lookups tid junk).vhash
      = (lookupRegion b x sd lookups tid junk).digests.sum := by
    rw [lookupRegion_vhash, checksum_eq_sum_mod]
    apply Nat.mod_eq_of_lt
    unfold U64
    omega
  refine ⟨hv, ?_, ?_⟩
  · rw [hv, ← hmax]
    exact_mod_cast hsum
  · rw [← hmax]
    omega

/-- Witness of claim C10 (amended): five lookups on the toy instance. -/
theorem C10_checksum_never_wraps_witness :
    (-(2 : Int) ^ 31 ≤ 5 ∧ (5 : Int) < 2 ^ 31)
    ∧ (lookupRegion ⟨true, false, false, false⟩ toyExt toyStatic 5 0 toyJunk).vhash
        = (lookupRegion ⟨true, false, false, false⟩ toyExt toyStatic 5 0 toyJunk).digests.sum
    ∧ ((lookupRegion ⟨true, false, false, false⟩ toyExt toyStatic 5 0 toyJunk).vhash : Int)
        ≤ 9999 * max 5 0 :=
  have h := C10_checksum_never_wraps ⟨true, false, false, false⟩ toyExt toyStatic 5 0 toyJunk
    (fun _ _ _ => Nat.mod_lt _ (by norm_num)) (by decide) (by decide)
  ⟨by decide, h.1, h.2.1⟩


theorem seedInit_exact (t : Int) (h0 : 0 ≤ t) (ht : (t + 1) * 19 + 17 ≤ 2 ^ 31 - 1) :
    (seedInit t : Int) = (t + 1) * 19 + 17 := by
  unfold seedInit wrapInt U64
  have e1 : ((t + 1) * 19 + 17 + 2 ^ 31) % 2 ^ 32 = (t + 1) * 19 + 17 + 2 ^ 31 := by
    apply Int.emod_eq_of_lt <;> omega
  rw [e1]
  have e2 : (t + 1) * 19 + 17 + 2 ^ 31 - 2 ^ 31 = (t + 1) * 19 + 17 := by omega
  rw [e2]
  have e3 : ((t + 1) * 19 + 17) % ((2 ^ 64 : Nat) : Int) = (t + 1) * 19 + 17 := by
    apply Int.emod_eq_of_lt <;> push_cast <;> omega
  rw [e3]
  apply Int.toNat_of_nonneg
  omega

/-- Claim C9: the seed map `t -> (t+1)*19+17` of Main.c:191 is injective and positive on
worker indices `0 <= s < t` whose seed fits a 32-bit signed `int`; `seed(0) = 36`;
and the `unsigned long` stored is the exact integer (no wraparound).  Outside the
accelerator build the prologue of the region stores exactly this value. -/
theorem C9_seed_map_injective_positive_exact (s t : Int) (hs : 0 ≤ s) (hst : s < t)
    (ht : (t + 1) * 19 + 17 ≤ 2 ^ 31 - 1) :
    seedInit s ≠ seedInit t
    ∧ seedInit 0 = 36
    ∧ (seedInit s : Int) = (s + 1) * 19 + 17
    ∧ (seedInit t : Int) = (t + 1) * 19 + 17
    ∧ 0 < seedInit s ∧ 0 < seedInit t
    ∧ (∀ (b : Build) (st : LoopState R T P), b.acc = false →
        (prologue b t st).seed = ⟨seedInit t, true⟩
        ∧ (prologue b t st).thread = ⟨t, true⟩) := by
  have es := seedInit_exact s hs (by omega)
  have et := seedInit_exact t (by omega) ht
  refine ⟨?_, by decide, es, et, ?_, ?_, ?_⟩
  · intro h
    have : (seedInit s : Int) = (seedInit t : Int) := by rw [h]
    omega
  · omega
  · omega
  · intro b st hb
    simp [prologue, hb]

/-- Witness of claim C9: workers 0 and 3. -/
theorem C9_seed_map_injective_positive_exact_witness :
    ((0 : Int) ≤ 0 ∧ (0 : Int) < 3 ∧ ((3 : Int) + 1) * 19 + 17 ≤ 2 ^ 31 - 1)
    ∧ seedInit 0 ≠ seedInit 3 ∧ (seedInit 3 : Int) = (3 + 1) * 19 + 17 :=
  have h := C9_seed_map_injective_positive_exact (R := Nat) (T := Nat) (P := Nat) 0 3
    (by decide) (by decide) (by decide)
  ⟨by decide, h.1, h.2.2.2.1⟩

/-- Claim C4 (the accelerator verification build): with `VERIFICATION` and `ACC` both
defined no trial samples anything.  Every `calculate_macro_xs` call receives the
never-assigned `p_energy` and `mat`, no value is drawn from `rn_v` and none from
`rn`. -/
theorem C4_verification_acc_passes_unassigned (x : Ext R X T P) (sd : Static R T P)
    (lookups tid : Int) (junk : Junk R) (br bd : Bool) :
    (lookupRegion ⟨true, true, br, bd⟩ x sd lookups tid junk).calls
        = (List.range lookups.toNat).map
            (fun k => ⟨Int.ofNat k, ⟨junk.p_energy, false⟩, ⟨junk.mat, false⟩, sd⟩)
    ∧ (lookupRegion ⟨true, true, br, bd⟩ x sd lookups tid junk).rnv_calls = 0
    ∧ (lookupRegion ⟨true, true, br, bd⟩ x sd lookups tid junk).seed_reads = []
    ∧ (lookupRegion ⟨true, true, br, bd⟩ x sd 1 tid junk).calls
        = [⟨0, ⟨junk.p_energy, false⟩, ⟨junk.mat, false⟩, sd⟩] := by
  have key : ∀ lookups : Int,
      (lookupRegion ⟨true, true, br, bd⟩ x sd lookups tid junk).calls
        = (List.range lookups.toNat).map
            (fun k => ⟨Int.ofNat k, ⟨junk.p_energy, false⟩, ⟨junk.mat, false⟩, sd⟩)
      ∧ (lookupRegion ⟨true, true, br, bd⟩ x sd lookups tid junk).rnv_calls = 0
      ∧ (lookupRegion ⟨true, true, br, bd⟩ x sd lookups tid junk).seed_reads = [] := by
    intro lookups
    unfold lookupRegion
    refine lookupLoop_invariant ⟨true, true, br, bd⟩ x sd lookups
      (fun k s => (s.calls = (List.range k).map
            (fun k => ⟨Int.ofNat k, ⟨junk.p_energy, false⟩, ⟨junk.mat, false⟩, sd⟩)
          ∧ s.rnv_calls = 0 ∧ s.seed_reads = [])
        ∧ s.p_energy = ⟨junk.p_energy, false⟩ ∧ s.mat = ⟨junk.mat, false⟩) _ ?_ ?_ |>.1
    · simp [prologue, LoopState.entry]
    · intro k s _ hk
      obtain ⟨⟨h1, h2, h3⟩, h4, h5⟩ := hk
      simp [trial, sample, evaluate, h1, h2, h3, h4, h5, List.range_succ]
  exact ⟨(key lookups).1, (key lookups).2.1, (key lookups).2.2, by simpa using (key 1).1⟩

/-- Claim C5 (the accelerator performance build): with `ACC` defined and `VERIFICATION`
not, the seed is never initialised: the first `rn(&seed)` of the first trial reads
the never-assigned `seed`, and the energy of that trial is drawn from it. -/
theorem C5_acc_first_draw_reads_unassigned_seed (x : Ext R X T P) (sd : Static R T P)
    (tid : Int) (junk : Junk R) (br bd : Bool) :
    (lookupRegion ⟨false, true, br, bd⟩ x sd 1 tid junk).seed_reads
        = [⟨junk.seed, false⟩, ⟨(x.rn junk.seed).2, true⟩]
    ∧ (lookupRegion ⟨false, true, br, bd⟩ x sd 1 tid junk).calls.map (fun c => c.p_energy)
        = [⟨(x.rn junk.seed).1, true⟩]
    ∧ (lookupRegion ⟨false, false, br, bd⟩ x sd 1 tid junk).seed_reads
        = [⟨seedInit tid, true⟩, ⟨(x.rn (seedInit tid)).2, true⟩] := by
  refine ⟨?_, ?_, ?_⟩ <;>
    simp [lookupRegion, lookupLoop, trial, sample, evaluate, prologue, LoopState.entry]


/-! ## The lookup region inside `main` -/

theorem regionLoop_step (b : Build) (h : Helpers R T P) (x : Ext R X T P) (sd : Static R T P)
    (lookups i : Int) (rs : RegionState R T P) (hi : i < lookups) :
    regionLoop b h x sd lookups i rs
      = regionLoop b h x sd lookups (i + 1) (regionTrial b h x sd i rs) := by
  rw [regionLoop, if_pos hi]

theorem regionLoop_exit (b : Build) (h : Helpers R T P) (x : Ext R X T P) (sd : Static R T P)
    (lookups i : Int) (rs : RegionState R T P) (hi : ¬ i < lookups) :
    regionLoop b h x sd lookups i rs = rs := by
  rw [regionLoop, if_neg hi]

/-- Loop rule for the region inside `main`. -/
theorem regionLoop_rule (b : Build) (h : Helpers R T P) (x : Ext R X T P) (sd : Static R T P)
    (lookups : Int) (Inv : Nat → RegionState R T P → Prop)
    (hs : ∀ (k : Nat) (s : RegionState R T P), (k : Int) < lookups → Inv k s →
      Inv (k + 1) (regionTrial b h x sd k s)) :
    ∀ (n k : Nat) (rs : RegionState R T P), (lookups - k).toNat = n → Inv k rs →
      Inv (max k lookups.toNat) (regionLoop b h x sd lookups k rs) := by
  intro n
  induction n with
  | zero =>
    intro k rs hn h0
    have hk : ¬ (k : Int) < lookups := by omega
    rw [regionLoop_exit b h x sd lookups k rs hk]
    have : max k lookups.toNat = k := by
      apply max_eq_left
      omega
    rw [this]
    exact h0
  | succ n ih =>
    intro k rs hn h0
    have hk : (k : Int) < lookups := by omega
    rw [regionLoop_step b h x sd lookups k rs hk]
    have h1 := ih (k + 1) (regionTrial b h x sd k rs) (by push_cast; omega) (hs k rs hk h0)
    have e : max (k + 1) lookups.toNat = max k lookups.toNat := by
      rw [max_eq_right (by omega), max_eq_right (by omega)]
    rw [e] at h1
    exact_mod_cast h1

/-- The loop rule for the whole region. -/
theorem region_invariant (b : Build) (h : Helpers R T P) (x : Ext R X T P) (sd : Static R T P)
    (lookups tid : Int) (junk : Junk R) (Inv : Nat → RegionState R T P → Prop)
    (h0 : Inv 0 { loop := prologue b tid (LoopState.entry junk), tables := sd.nuclide_grids })
    (hs : ∀ (k : Nat) (s : RegionState R T P), (k : Int) < lookups → Inv k s →
      Inv (k + 1) (regionTrial b h x sd k s)) :
    Inv lookups.toNat (region b h x sd lookups tid junk) := by
  have hr := regionLoop_rule b h x sd lookups Inv hs (lookups - (0 : Nat)).toNat 0 _ rfl h0
  simpa [region] using hr

theorem prologue_logs (b : Build) (tid : Int) (junk : Junk R) :
    (prologue b tid (LoopState.entry junk) : LoopState R T P).calls = []
    ∧ (prologue b tid (LoopState.entry junk) : LoopState R T P).digests = []
    ∧ (prologue b tid (LoopState.entry junk) : LoopState R T P).vhash = 0 := by
  unfold prologue LoopState.entry
  cases b.acc <;> simp

theorem trial_calls (b : Build) (x : Ext R X T P) (sd : Static R T P) (i : Int)
    (st : LoopState R T P) :
    (trial b x sd i st).calls
      = st.calls ++ [⟨i, (sample b x st).p_energy, (sample b x st).mat, sd⟩] := by
  unfold trial
  rw [evaluate_calls, (sample_keeps b x st).1]

theorem trial_digests_on (b : Build) (x : Ext R X T P) (sd : Static R T P) (i : Int)
    (st : LoopState R T P) (hv : b.verification = true) :
    (trial b x sd i st).digests
        = st.digests ++ [vhash_local x sd (sample b x st).p_energy.val (sample b x st).mat.val]
    ∧ (trial b x sd i st).vhash
        = accumulate st.vhash
            (vhash_local x sd (sample b x st).p_energy.val (sample b x st).mat.val) := by
  unfold trial
  obtain ⟨e1, e2⟩ := evaluate_digests_on b x sd i (sample b x st) hv
  rw [e1, e2, (sample_keeps b x st).2.1, (sample_keeps b x st).2.2]
  exact ⟨rfl, rfl⟩

theorem trial_digests_off (b : Build) (x : Ext R X T P) (sd : Static R T P) (i : Int)
    (st : LoopState R T P) (hv : b.verification = false) :
    (trial b x sd i st).digests = st.digests ∧ (trial b x sd i st).vhash = st.vhash := by
  unfold trial
  obtain ⟨e1, e2⟩ := evaluate_digests_off b x sd i (sample b x st) hv
  rw [e1, e2, (sample_keeps b x st).2.1, (sample_keeps b x st).2.2]
  exact ⟨rfl, rfl⟩

/-- In the region inside `main`: the trial indices of the calls are
`0, ..., lookups-1`; the checksum is the fold of the recorded digests; and the
digests are, in verification mode, the `vhash_local` of each call's own arguments
and data, and absent otherwise. -/
theorem region_facts (b : Build) (h : Helpers R T P) (x : Ext R X T P) (sd : Static R T P)
    (lookups tid : Int) (junk : Junk R) :
    (region b h x sd lookups tid junk).loop.calls.map (fun c => c.i)
        = (List.range lookups.toNat).map Int.ofNat
    ∧ (region b h x sd lookups tid junk).loop.vhash
        = checksum (region b h x sd lookups tid junk).loop.digests
    ∧ (region b h x sd lookups tid junk).loop.digests
        = if b.verification then
            (region b h x sd lookups tid junk).loop.calls.map
              (fun c => vhash_local x c.data c.p_energy.val c.mat.val)
          else [] := by
  refine region_invariant b h x sd lookups tid junk
    (fun k s => s.loop.calls.map (fun c => c.i) = (List.range k).map Int.ofNat
      ∧ s.loop.vhash = checksum s.loop.digests
      ∧ s.loop.digests = if b.verification then
            s.loop.calls.map (fun c => vhash_local x c.data c.p_energy.val c.mat.val)
          else []) ?_ ?_
  · obtain ⟨e1, e2, e3⟩ := prologue_logs (T := T) (P := P) b tid junk
    simp only [e1, e2, e3]
    cases b.verification <;> simp [checksum]
  · intro k s _ hk
    obtain ⟨hc, hv, hd⟩ := hk
    unfold regionTrial
    simp only [trial_calls]
    refine ⟨?_, ?_, ?_⟩
    · rw [List.map_append, hc, List.range_succ, List.map_append]
      simp
    · cases hb : b.verification
      · obtain ⟨e1, e2⟩ := trial_digests_off b x { sd with nuclide_grids := s.tables } k s.loop hb
        rw [e1, e2]
        exact hv
      · obtain ⟨e1, e2⟩ := trial_digests_on b x { sd with nuclide_grids := s.tables } k s.loop hb
        rw [e1, e2, checksum_snoc, hv]
    · cases hb : b.verification
      · obtain ⟨e1, _⟩ := trial_digests_off b x { sd with nuclide_grids := s.tables } k s.loop hb
        rw [e1, hd, hb]
        simp
      · obtain ⟨e1, _⟩ := trial_digests_on b x { sd with nuclide_grids := s.tables } k s.loop hb
        rw [e1, hd, hb]
        simp

/-- When `calculate_macro_xs` leaves the tables alone, the region inside `main`
is the region on fixed data, and the tables are unchanged at its exit. -/
theorem region_readOnly (b : Build) (h : Helpers R T P) (x : Ext R X T P) (sd : Static R T P)
    (lookups tid : Int) (junk : Junk R)
    (hro : ∀ e m d, h.calculate_macro_xs_tables e m d = d.nuclide_grids) :
    (region b h x sd lookups tid junk).tables = sd.nuclide_grids
    ∧ ∀ c ∈ (region b h x sd lookups tid junk).loop.calls, c.data = sd := by
  refine region_invariant b h x sd lookups tid junk
    (fun _ s => s.tables = sd.nuclide_grids ∧ ∀ c ∈ s.loop.calls, c.data = sd) ?_ ?_
  · refine ⟨rfl, ?_⟩
    rw [(prologue_logs (T := T) (P := P) b tid junk).1]
    simp
  · intro k s _ hk
    obtain ⟨ht, hc⟩ := hk
    have hsd : ({ sd with nuclide_grids := s.tables } : Static R T P) = sd := by
      rw [ht]
    unfold regionTrial
    simp only [trial_calls, hsd]
    refine ⟨hro _ _ _, ?_⟩
    intro c hcm
    rcases List.mem_append.1 hcm with h1 | h1
    · exact hc c h1
    · rw [List.mem_singleton.1 h1]


/-! ## Runs of `main` -/

/-- A run of `main` after `read_CLI` reaches the lookup loop exactly when set-up
completed and the build does not dump; the loop state is then the region on the
data of set-up and `print_results` is given its checksum. -/
theorem mainBody_loop (b : Build) (h : Helpers R T P) (x : Ext R X T P) (cfg : Config)
    (tid : Int) (junk : Junk R) (rs : RegionState R T P)
    (hl : (mainBody b h x cfg tid junk).loop = some rs) :
    b.binary_dump = false
    ∧ ∃ sd, (setup b h cfg).data = some sd
        ∧ rs = region b h x sd cfg.lookups tid junk
        ∧ (mainBody b h x cfg tid junk).outcome = Outcome.reported rs.loop.vhash := by
  unfold mainBody at hl ⊢
  cases hs : (setup b h cfg).data with
  | none => simp [hs] at hl
  | some sd =>
    cases hd : b.binary_dump
    · simp only [hs, hd, Bool.false_eq_true, if_false] at hl ⊢
      have e := Option.some.inj hl
      exact ⟨trivial, sd, rfl, e.symm, by rw [e]⟩
    · simp [hs, hd] at hl

/-- Without `BINARY_READ` set-up always completes. -/
theorem setup_completes (b : Build) (h : Helpers R T P) (cfg : Config)
    (hb : b.binary_read = false) : ∃ sd, (setup b h cfg).data = some sd := by
  simp [setup, gridPhase, hb]

theorem mainBody_loop_some (b : Build) (h : Helpers R T P) (x : Ext R X T P) (cfg : Config)
    (tid : Int) (junk : Junk R) (hd : b.binary_dump = false) (sd : Static R T P)
    (hs : (setup b h cfg).data = some sd) :
    (mainBody b h x cfg tid junk).loop = some (region b h x sd cfg.lookups tid junk) := by
  unfold mainBody
  simp [hs, hd]

theorem mainBody_dump (b : Build) (h : Helpers R T P) (x : Ext R X T P) (cfg : Config)
    (tid : Int) (junk : Junk R) (hd : b.binary_dump = true) :
    (mainBody b h x cfg tid junk).loop = none := by
  unfold mainBody
  cases hs : (setup b h cfg).data <;> simp [hs, hd]

/-- Claim C3 fails as stated in the `BINARY_DUMP` build: with `lookups = 2` `main`
dumps the grids and returns (Main.c:123-128) without entering the lookup loop, so
`calculate_macro_xs` is called 0 times, not 2, and no checksum is reported. -/
theorem C3_binary_dump_counterexample :
    (0 : Int) ≤ 2
    ∧ (mainBody ⟨true, false, false, true⟩ toyHelpers toyExt ⟨1, 2, 3, 2⟩ 0 toyJunk).calls = []
    ∧ ¬ (((mainBody ⟨true, false, false, true⟩ toyHelpers toyExt ⟨1, 2, 3, 2⟩ 0
          toyJunk).calls.length : Int) = 2)
    ∧ (mainBody ⟨true, false, false, true⟩ toyHelpers toyExt ⟨1, 2, 3, 2⟩ 0 toyJunk).outcome
        = Outcome.dumped := by
  have hc : (mainBody ⟨true, false, false, true⟩ toyHelpers toyExt ⟨1, 2, 3, 2⟩ 0
      toyJunk).calls = [] := by
    unfold MainResult.calls
    rw [mainBody_dump _ _ _ _ _ _ rfl]
  refine ⟨by decide, hc, ?_, ?_⟩
  · rw [hc]
    decide
  · simp [mainBody, setup, gridPhase]

/-- Claim C3 (amended): in every run of `main` that reaches the lookup loop (the
build does not dump and set-up completed), the loop runs one trial per index
`0 .. lookups-1`: for `lookups >= 0` exactly `lookups` calls of `calculate_macro_xs`
are made, with indices `0, 1, ..., lookups-1`; in verification mode exactly
`lookups` digests, the `vhash_local` of each call's arguments, are added to the
checksum, which ends as their sum modulo 2^64 and is what `print_results` is
given; for `lookups <= 0` no trial runs and the reported checksum is 0.  In a
`BINARY_DUMP` build no call is made, and without `BINARY_DUMP` and `BINARY_READ`
the loop is always reached. -/
theorem C3_lookup_loop_runs_lookups_trials (b : Build) (h : Helpers R T P) (x : Ext R X T P)
    (cfg : Config) (tid : Int) (junk : Junk R) (rs : RegionState R T P)
    (hl : (mainBody b h x cfg tid junk).loop = some rs) :
    b.binary_dump = false
    ∧ (mainBody b h x cfg tid junk).calls = rs.loop.calls
    ∧ (mainBody b h x cfg tid junk).outcome = Outcome.reported rs.loop.vhash
    ∧ rs.loop.vhash = rs.loop.digests.sum % 2 ^ 64
    ∧ (b.verification = true →
        rs.loop.digests
          = rs.loop.calls.map (fun c => vhash_local x c.data c.p_energy.val c.mat.val))
    ∧ (b.verification = false → rs.loop.digests = [])
    ∧ (0 ≤ cfg.lookups →
        rs.loop.calls.map (fun c => c.i) = (List.range cfg.lookups.toNat).map Int.ofNat
        ∧ (rs.loop.calls.length : Int) = cfg.lookups
        ∧ (b.verification = true → (rs.loop.digests.length : Int) = cfg.lookups))
    ∧ (cfg.lookups ≤ 0 →
        rs.loop.calls = [] ∧ rs.loop.digests = []
        ∧ (mainBody b h x cfg tid junk).outcome = Outcome.reported 0)
    ∧ (∀ (b1 : Build), b1.binary_dump = true → (mainBody b1 h x cfg tid junk).calls = [])
    ∧ (∀ (b1 : Build), b1.binary_dump = false → b1.binary_read = false →
        ∃ rs1, (mainBody b1 h x cfg tid junk).loop = some rs1) := by
  obtain ⟨hd, sd, _, hrs, hout⟩ := mainBody_loop b h x cfg tid junk rs hl
  obtain ⟨hc, hv, hdig⟩ := region_facts b h x sd cfg.lookups tid junk
  rw [← hrs] at hc hv hdig
  have hlen : rs.loop.calls.length = cfg.lookups.toNat := by
    have := congrArg List.length hc
    simpa using this
  have hsum : rs.loop.vhash = rs.loop.digests.sum % 2 ^ 64 := by
    rw [hv, checksum_eq_sum_mod]
    rfl
  have hdl : b.verification = true → rs.loop.digests.length = cfg.lookups.toNat := by
    intro hb
    rw [hdig, if_pos hb, List.length_map, hlen]
  refine ⟨hd, ?_, hout, hsum, ?_, ?_, ?_, ?_, ?_, ?_⟩
  · unfold MainResult.calls
    rw [hl]
  · intro hb
    rw [hdig, if_pos hb]
  · intro hb
    rw [hdig, hb]
    simp
  · intro h0
    refine ⟨hc, ?_, ?_⟩
    · rw [hlen]
      exact Int.toNat_of_nonneg h0
    · intro hb
      rw [hdl hb]
      exact Int.toNat_of_nonneg h0
  · intro h0
    have hz : cfg.lookups.toNat = 0 := by omega
    have hcalls : rs.loop.calls = [] := List.length_eq_zero.1 (by rw [hlen, hz])
    have hdigs : rs.loop.digests = [] := by
      rw [hdig, hcalls]
      cases b.verification <;> simp
    refine ⟨hcalls, hdigs, ?_⟩
    rw [hout, hsum, hdigs]
    rfl
  · intro b1 hb1
    unfold MainResult.calls
    rw [mainBody_dump b1 h x cfg tid junk hb1]
  · intro b1 hb1 hb2
    obtain ⟨sd1, hs1⟩ := setup_completes b1 h cfg hb2
    exact ⟨_, mainBody_loop_some b1 h x cfg tid junk hb1 sd1 hs1⟩

/-- Witness of claim C3 (amended): three lookups in a verification build of the
toy instance. -/
theorem C3_lookup_loop_runs_lookups_trials_witness :
    (mainBody ⟨true, false, false, false⟩ toyHelpers toyExt ⟨2, 2, 3, 3⟩ 0 toyJunk).loop
      = some (region ⟨true, false, false, false⟩ toyHelpers toyExt
          { n_isotopes := 2, n_gridpoints := 3, num_nucs := [2], concs := [485],
            energy_grid := [⟨80, 0⟩], grid_ptrs := 13, nuclide_grids := 80, mats := [484],
            mats_idx := [2] } 3 0 toyJunk)
    ∧ ((region ⟨true, false, false, false⟩ toyHelpers toyExt
          { n_isotopes := 2, n_gridpoints := 3, num_nucs := [2], concs := [485],
            energy_grid := [⟨80, 0⟩], grid_ptrs := 13, nuclide_grids := 80, mats := [484],
            mats_idx := [2] } 3 0 toyJunk).loop.calls.length : Int) = 3
    ∧ ((region ⟨true, false, false, false⟩ toyHelpers toyExt
          { n_isotopes := 2, n_gridpoints := 3, num_nucs := [2], concs := [485],
            energy_grid := [⟨80, 0⟩], grid_ptrs := 13, nuclide_grids := 80, mats := [484],
            mats_idx := [2] } 3 0 toyJunk).loop.digests.length : Int) = 3 :=
  have hl : (mainBody ⟨true, false, false, false⟩ toyHelpers toyExt ⟨2, 2, 3, 3⟩ 0 toyJunk).loop
      = some (region ⟨true, false, false, false⟩ toyHelpers toyExt
          { n_isotopes := 2, n_gridpoints := 3, num_nucs := [2], concs := [485],
            energy_grid := [⟨80, 0⟩], grid_ptrs := 13, nuclide_grids := 80, mats := [484],
            mats_idx := [2] } 3 0 toyJunk) :=
    mainBody_loop_some _ _ _ _ _ _ rfl _ rfl
  have h := (C3_lookup_loop_runs_lookups_trials ⟨true, false, false, false⟩ toyHelpers toyExt
    ⟨2, 2, 3, 3⟩ 0 toyJunk _ hl).2.2.2.2.2.2.1 (by decide)
  ⟨hl, h.2.1, h.2.2 rfl⟩


/-! ## Configuration handling -/

/-- Every step of the grid phase is called with the configured sizes. -/
theorem gridPhase_sizes (b : Build) (h : Helpers R T P) (cfg : Config) :
    ∀ s ∈ (gridPhase b h cfg).trace, Step.sizesAsConfigured cfg s = true := by
  intro s hs
  unfold gridPhase at hs
  cases hb : b.binary_read
  · simp only [hb, Bool.false_eq_true, if_false] at hs
    simp only [List.mem_cons, List.mem_singleton, List.not_mem_nil, or_false] at hs
    rcases hs with h1 | h1 | h1 | h1 | h1 | h1 <;> rw [h1] <;>
      simp [Step.sizesAsConfigured, call_gpmatrix, call_generate_grids,
        call_sort_nuclide_grids, call_generate_ptr_grid, call_generate_energy_grid,
        call_set_grid_ptrs]
  · simp only [hb, if_true] at hs
    cases hg : (call_malloc_energy_grid (T := T) h cfg.n_isotopes cfg.n_gridpoints).1 with
    | none =>
      simp only [hg, List.mem_cons, List.mem_singleton, List.not_mem_nil, or_false] at hs
      rcases hs with h1 | h1 | h1 | h1 <;> rw [h1] <;>
        simp [Step.sizesAsConfigured, call_gpmatrix, call_generate_grids,
          call_generate_ptr_grid, call_malloc_energy_grid]
    | some grid =>
      simp only [hg, List.mem_cons, List.mem_singleton, List.not_mem_nil, or_false] at hs
      rcases hs with h1 | h1 | h1 | h1 | h1 <;> rw [h1] <;>
        simp [Step.sizesAsConfigured, call_gpmatrix, call_generate_grids,
          call_generate_ptr_grid, call_malloc_energy_grid, call_binary_read]

/-- Every step of set-up is called with the configured sizes, and the data it
leaves carries them. -/
theorem setup_sizes (b : Build) (h : Helpers R T P) (cfg : Config) :
    (∀ s ∈ (setup b h cfg).trace, Step.sizesAsConfigured cfg s = true)
    ∧ (∀ sd, (setup b h cfg).data = some sd →
        sd.n_isotopes = cfg.n_isotopes ∧ sd.n_gridpoints = cfg.n_gridpoints
        ∧ Step.load_num_nucs cfg.n_isotopes ∈ (setup b h cfg).trace
        ∧ Step.load_mats (sizeMats cfg.n_isotopes) cfg.n_isotopes ∈ (setup b h cfg).trace
        ∧ Step.load_concs b.verification (sizeMats cfg.n_isotopes) ∈ (setup b h cfg).trace) := by
  have hg := gridPhase_sizes b h cfg
  unfold setup
  cases hr : (gridPhase b h cfg).result with
  | none =>
    simp only [hr]
    exact ⟨hg, fun sd hsd => by cases hsd⟩
  | some tgp =>
    simp only [hr]
    constructor
    · intro s hs
      rcases List.mem_append.1 hs with h1 | h1
      · exact hg s h1
      · simp only [List.mem_cons, List.mem_singleton, List.not_mem_nil, or_false] at h1
        rcases h1 with h2 | h2 | h2 | h2 <;> rw [h2] <;>
          simp [Step.sizesAsConfigured, call_load_num_nucs, call_load_mats_idx,
            call_load_mats, call_load_concs]
    · intro sd hsd
      have e := Option.some.inj hsd
      subst e
      simp [call_load_num_nucs, call_load_mats_idx, call_load_mats, call_load_concs]

/-- Without `BINARY_READ`, set-up completes with the tables, the grid and the
index array that `set_grid_ptrs` leaves. -/
theorem setup_data_tables (b : Build) (h : Helpers R T P) (cfg : Config)
    (hb : b.binary_read = false) :
    ∃ sd, (setup b h cfg).data = some sd
      ∧ sd.nuclide_grids = (doubleIndexed b h cfg).2.2
      ∧ sd.energy_grid = (doubleIndexed b h cfg).1
      ∧ sd.grid_ptrs = (doubleIndexed b h cfg).2.1 := by
  have key : (setup b h cfg).data = some
      { n_isotopes := cfg.n_isotopes, n_gridpoints := cfg.n_gridpoints,
        num_nucs := h.load_num_nucs cfg.n_isotopes,
        concs := (call_load_concs (T := T) b h (sizeMats cfg.n_isotopes)).1,
        energy_grid := (doubleIndexed b h cfg).1,
        grid_ptrs := (doubleIndexed b h cfg).2.1,
        nuclide_grids := (doubleIndexed b h cfg).2.2,
        mats := h.load_mats (h.load_num_nucs cfg.n_isotopes)
          (h.load_mats_idx (h.load_num_nucs cfg.n_isotopes)) (sizeMats cfg.n_isotopes)
          cfg.n_isotopes,
        mats_idx := h.load_mats_idx (h.load_num_nucs cfg.n_isotopes) } := by
    simp only [setup, gridPhase, hb, Bool.false_eq_true, if_false]
    rfl
  exact ⟨_, key, rfl, rfl, rfl⟩

/-- Claim C7: in every build that constructs the unionized grid from the nuclide
tables (no `BINARY_READ`), the steps of `main` that are handed the tables are, in
order, generate, sort, unionize (`generate_energy_grid`), double-index
(`set_grid_ptrs`), then the dump or the lookup region; `generate_energy_grid` is
handed exactly the sorted generated tables, and each later step the tables as the
step before left them.  With `generate_energy_grid`, `set_grid_ptrs` and
`calculate_macro_xs` leaving the tables as they find them, `set_grid_ptrs`, the
lookup region and every `calculate_macro_xs` call receive exactly the sorted
tables, the unionized grid is the one built from them, and the tables are still
the sorted ones at the exit of the lookup loop. -/
theorem C7_generate_sort_unionize_index_order (b : Build) (h : Helpers R T P)
    (x : Ext R X T P) (cfg : Config) (tid : Int) (junk : Junk R)
    (hb : b.binary_read = false) :
    (mainBody b h x cfg tid junk).trace.filter Step.usesTables
      = [Step.generate_grids b.verification (h.gpmatrix cfg.n_isotopes cfg.n_gridpoints)
           cfg.n_isotopes cfg.n_gridpoints,
         Step.sort_nuclide_grids (generatedTables b h cfg) cfg.n_isotopes cfg.n_gridpoints,
         Step.generate_energy_grid cfg.n_isotopes cfg.n_gridpoints (sortedTables b h cfg),
         Step.set_grid_ptrs (unionized b h cfg).2.2 cfg.n_isotopes cfg.n_gridpoints,
         if b.binary_dump then
           Step.binary_dump cfg.n_isotopes cfg.n_gridpoints (doubleIndexed b h cfg).2.2
         else
           Step.lookup_region cfg.n_isotopes cfg.n_gridpoints (doubleIndexed b h cfg).2.2
             cfg.lookups]
    ∧ sortedTables b h cfg
        = h.sort_nuclide_grids (generatedTables b h cfg) cfg.n_isotopes cfg.n_gridpoints
    ∧ unionized b h cfg
        = h.generate_energy_grid cfg.n_isotopes cfg.n_gridpoints (sortedTables b h cfg)
            (h.generate_ptr_grid cfg.n_isotopes cfg.n_gridpoints)
    ∧ doubleIndexed b h cfg
        = h.set_grid_ptrs (unionized b h cfg).1 (unionized b h cfg).2.2 (unionized b h cfg).2.1
            cfg.n_isotopes cfg.n_gridpoints
    ∧ (TablesReadOnly h →
        (unionized b h cfg).2.2 = sortedTables b h cfg
        ∧ (doubleIndexed b h cfg).2.2 = sortedTables b h cfg
        ∧ (doubleIndexed b h cfg).1
            = (h.set_grid_ptrs (unionized b h cfg).1 (sortedTables b h cfg)
                (unionized b h cfg).2.1 cfg.n_isotopes cfg.n_gridpoints).1
        ∧ (∃ sd, (setup b h cfg).data = some sd
            ∧ sd.nuclide_grids = sortedTables b h cfg
            ∧ sd.energy_grid = (doubleIndexed b h cfg).1)
        ∧ (∀ rs, (mainBody b h x cfg tid junk).loop = some rs →
            rs.tables = sortedTables b h cfg
            ∧ ∀ c ∈ rs.loop.calls, c.data.nuclide_grids = sortedTables b h cfg)) := by
  obtain ⟨sd, hsd, ht, hg, _⟩ := setup_data_tables b h cfg hb
  refine ⟨?_, rfl, rfl, rfl, ?_⟩
  · have htr : (setup b h cfg).trace
        = [Step.gpmatrix cfg.n_isotopes cfg.n_gridpoints,
           Step.generate_grids b.verification (h.gpmatrix cfg.n_isotopes cfg.n_gridpoints)
             cfg.n_isotopes cfg.n_gridpoints,
           Step.sort_nuclide_grids (generatedTables b h cfg) cfg.n_isotopes cfg.n_gridpoints,
           Step.generate_ptr_grid cfg.n_isotopes cfg.n_gridpoints,
           Step.generate_energy_grid cfg.n_isotopes cfg.n_gridpoints (sortedTables b h cfg),
           Step.set_grid_ptrs (unionized b h cfg).2.2 cfg.n_isotopes cfg.n_gridpoints,
           Step.load_num_nucs cfg.n_isotopes,
           Step.load_mats_idx,
           Step.load_mats (sizeMats cfg.n_isotopes) cfg.n_isotopes,
           Step.load_concs b.verification (sizeMats cfg.n_isotopes)] := by
      simp only [setup, gridPhase, hb, Bool.false_eq_true, if_false]
      rfl
    have hn := ((setup_sizes b h cfg).2 sd hsd)
    unfold mainBody
    simp only [hsd, htr]
    cases hd : b.binary_dump
    · simp [Step.usesTables, List.filter, ht, hn.1, hn.2.1]
    · simp [Step.usesTables, List.filter, ht]
  · intro hro
    obtain ⟨h1, h2, h3⟩ := hro
    have e1 : (unionized b h cfg).2.2 = sortedTables b h cfg := h1 _ _ _ _
    have e2 : (doubleIndexed b h cfg).2.2 = sortedTables b h cfg := by
      have := h2 (unionized b h cfg).1 (unionized b h cfg).2.2 (unionized b h cfg).2.1
        cfg.n_isotopes cfg.n_gridpoints
      rw [e1] at this
      rw [← this]
      show (doubleIndexed b h cfg).2.2 = _
      unfold doubleIndexed call_set_grid_ptrs
      rw [e1]
    refine ⟨e1, e2, ?_, ⟨sd, hsd, by rw [ht, e2], hg⟩, ?_⟩
    · unfold doubleIndexed call_set_grid_ptrs
      rw [e1]
    · intro rs hl
      obtain ⟨_, sd1, hsd1, hrs, _⟩ := mainBody_loop b h x cfg tid junk rs hl
      rw [hsd] at hsd1
      have e := Option.some.inj hsd1
      subst e
      obtain ⟨r1, r2⟩ := region_readOnly b h x sd cfg.lookups tid junk h3
      rw [hrs]
      refine ⟨by rw [r1, ht, e2], ?_⟩
      intro c hc
      rw [r2 c hc, ht, e2]

theorem toyHelpers_readOnly : TablesReadOnly toyHelpers := by
  refine ⟨?_, ?_, ?_⟩ <;> intros <;> rfl

/-- Witness of claim C7: the toy instance, performance build, two lookups. -/
theorem C7_generate_sort_unionize_index_order_witness :
    (mainBody ⟨false, false, false, false⟩ toyHelpers toyExt ⟨1, 2, 3, 2⟩ 0
        toyJunk).trace.filter Step.usesTables
      = [Step.generate_grids false 6 2 3, Step.sort_nuclide_grids 7 2 3,
         Step.generate_energy_grid 2 3 70, Step.set_grid_ptrs 70 2 3,
         Step.lookup_region 2 3 70 2]
    ∧ (∀ rs, (mainBody ⟨false, false, false, false⟩ toyHelpers toyExt ⟨1, 2, 3, 2⟩ 0
          toyJunk).loop = some rs →
        rs.tables = 70 ∧ ∀ c ∈ rs.loop.calls, c.data.nuclide_grids = 70) :=
  have h := C7_generate_sort_unionize_index_order ⟨false, false, false, false⟩ toyHelpers
    toyExt ⟨1, 2, 3, 2⟩ 0 toyJunk rfl
  ⟨h.1, (h.2.2.2.2 toyHelpers_readOnly).2.2.2.2⟩

/-- The assumption on the helpers is needed: with a `generate_energy_grid` that
overwrites the tables, `set_grid_ptrs` and the lookup region are handed tables
other than the sorted ones. -/
theorem writing_helper_breaks_tables :
    sortedTables ⟨false, false, false, false⟩ toyHelpersWriting ⟨1, 2, 3, 2⟩ = 70
    ∧ (mainBody ⟨false, false, false, false⟩ toyHelpersWriting toyExt ⟨1, 2, 3, 2⟩ 0
        toyJunk).trace.filter Step.usesTables
      = [Step.generate_grids false 6 2 3, Step.sort_nuclide_grids 7 2 3,
         Step.generate_energy_grid 2 3 70, Step.set_grid_ptrs 0 2 3,
         Step.lookup_region 2 3 0 2] := by
  refine ⟨rfl, ?_⟩
  simp [mainBody, setup, gridPhase, Step.usesTables, List.filter, call_gpmatrix,
    call_generate_grids, call_sort_nuclide_grids, call_generate_ptr_grid,
    call_generate_energy_grid, call_set_grid_ptrs, call_load_num_nucs, call_load_mats_idx,
    call_load_mats, call_load_concs, toyHelpersWriting, toyHelpers]


/-! ## The unionized grid framework of the cache-read build -/

theorem writeXsPtrs_length (g : List (GridPoint R)) (i : Nat) (v : Int) :
    (writeXsPtrs g i v).length = g.length := by
  induction g generalizing i with
  | nil => simp [writeXsPtrs]
  | cons p ps ih =>
    cases i with
    | zero => simp [writeXsPtrs]
    | succ i => simp [writeXsPtrs, ih]

theorem writeXsPtrs_getElem? (g : List (GridPoint R)) (i : Nat) (v : Int) (j : Nat) :
    (writeXsPtrs g i v)[j]?
      = if j = i then g[j]?.map (fun p => { p with xs_ptrs := v }) else g[j]? := by
  induction g generalizing i j with
  | nil => simp [writeXsPtrs]
  | cons p ps ih =>
    cases i with
    | zero =>
      cases j with
      | zero => simp [writeXsPtrs]
      | succ j => simp [writeXsPtrs]
    | succ i =>
      cases j with
      | zero => simp [writeXsPtrs]
      | succ j => simp [writeXsPtrs, ih]

theorem wrapLong_eq (x : Int) (h0 : -(2 : Int) ^ 63 ≤ x) (h1 : x < 2 ^ 63) : wrapLong x = x := by
  unfold wrapLong
  have e : (x + 2 ^ 63) % 2 ^ 64 = x + 2 ^ 63 := by
    apply Int.emod_eq_of_lt <;> omega
  rw [e]
  omega

theorem wrapInt_eq (x : Int) (h0 : -(2 : Int) ^ 31 ≤ x) (h1 : x < 2 ^ 31) : wrapInt x = x := by
  unfold wrapInt
  have e : (x + 2 ^ 31) % 2 ^ 32 = x + 2 ^ 31 := by
    apply Int.emod_eq_of_lt <;> omega
  rw [e]
  omega

theorem wrapBits_eq (bits : Nat) (x : Int) (hb : 0 < bits) (h0 : 0 ≤ x)
    (h1 : x < 2 ^ (bits - 1)) : wrapBits bits x = x := by
  unfold wrapBits
  have hp : (2 : Int) ^ bits = 2 * 2 ^ (bits - 1) := by
    obtain ⟨c, rfl⟩ : ∃ c, bits = c + 1 := ⟨bits - 1, by omega⟩
    simp [pow_succ, mul_comm]
  have hpos : (0 : Int) < 2 ^ (bits - 1) := by positivity
  have e : (x + 2 ^ (bits - 1)) % 2 ^ bits = x + 2 ^ (bits - 1) := by
    apply Int.emod_eq_of_lt
    · omega
    · rw [hp]
      omega
  rw [e]
  omega

theorem initXsPtrs_step (bits : Nat) (n_isotopes n_gridpoints i : Int)
    (grid : List (GridPoint R)) (h : i < wrapLong (n_isotopes * n_gridpoints))
    (hin : 0 ≤ i ∧ i.toNat < grid.length) :
    initXsPtrs bits n_isotopes n_gridpoints i grid
      = initXsPtrs bits n_isotopes n_gridpoints (wrapInt (i + 1))
          (writeXsPtrs grid i.toNat (wrapBits bits (wrapLong (i * n_isotopes)))) := by
  rw [initXsPtrs, if_pos h, if_pos hin]

theorem initXsPtrs_fault (bits : Nat) (n_isotopes n_gridpoints i : Int)
    (grid : List (GridPoint R)) (h : i < wrapLong (n_isotopes * n_gridpoints))
    (hin : ¬ (0 ≤ i ∧ i.toNat < grid.length)) :
    initXsPtrs bits n_isotopes n_gridpoints i grid = none := by
  rw [initXsPtrs, if_pos h, if_neg hin]

theorem initXsPtrs_exit (bits : Nat) (n_isotopes n_gridpoints i : Int)
    (grid : List (GridPoint R)) (h : ¬ i < wrapLong (n_isotopes * n_gridpoints)) :
    initXsPtrs bits n_isotopes n_gridpoints i grid = some grid := by
  rw [initXsPtrs, if_neg h]

/-- What the loop of Main.c:88-89 leaves behind when started at index `k`, when
the product of the sizes fits an `int` and the block has that many entries: the
loop ends without a store outside the block, the array keeps its length, every
entry `j` with `k <= j < n_isotopes*n_gridpoints` has the converted
`j*n_isotopes` as `xs_ptrs`, and nothing else is changed. -/
theorem initXsPtrs_spec (bits : Nat) (n_isotopes n_gridpoints : Int)
    (hN : n_isotopes * n_gridpoints ≤ INT_MAX) (hN0 : 0 ≤ n_isotopes * n_gridpoints) :
    ∀ (n k : Nat) (grid : List (GridPoint R)), (n_isotopes * n_gridpoints - k).toNat = n →
      (k : Int) ≤ n_isotopes * n_gridpoints →
      grid.length = (n_isotopes * n_gridpoints).toNat →
      ∃ res, initXsPtrs bits n_isotopes n_gridpoints k grid = some res
        ∧ res.length = grid.length
        ∧ ∀ j : Nat, res[j]?
            = if k ≤ j ∧ (j : Int) < n_isotopes * n_gridpoints
              then grid[j]?.map (fun p =>
                { p with xs_ptrs := wrapBits bits (wrapLong ((j : Int) * n_isotopes)) })
              else grid[j]? := by
  unfold INT_MAX at hN
  have hw : wrapLong (n_isotopes * n_gridpoints) = n_isotopes * n_gridpoints :=
    wrapLong_eq _ (by omega) (by omega)
  intro n
  induction n with
  | zero =>
    intro k grid hn hk hlen
    have hk2 : ¬ (k : Int) < wrapLong (n_isotopes * n_gridpoints) := by
      rw [hw]
      omega
    refine ⟨grid, initXsPtrs_exit bits n_isotopes n_gridpoints k grid hk2, rfl, fun j => ?_⟩
    have : ¬ (k ≤ j ∧ (j : Int) < n_isotopes * n_gridpoints) := by
      intro h
      omega
    rw [if_neg this]
  | succ n ih =>
    intro k grid hn hk hlen
    have hk3 : (k : Int) < n_isotopes * n_gridpoints := by omega
    have hk2 : (k : Int) < wrapLong (n_isotopes * n_gridpoints) := by
      rw [hw]
      exact hk3
    have hin : 0 ≤ (k : Int) ∧ (k : Int).toNat < grid.length := by
      constructor
      · omega
      · rw [hlen]
        omega
    rw [initXsPtrs_step bits n_isotopes n_gridpoints k grid hk2 hin]
    have hnext : wrapInt ((k : Int) + 1) = ((k + 1 : Nat) : Int) := by
      rw [wrapInt_eq _ (by omega) (by omega)]
      push_cast
      rfl
    rw [hnext]
    obtain ⟨res, hres, hl, hj⟩ := ih (k + 1)
      (writeXsPtrs grid (k : Int).toNat
        (wrapBits bits (wrapLong ((k : Int) * n_isotopes))))
      (by push_cast; omega) (by push_cast; omega) (by rw [writeXsPtrs_length, hlen])
    refine ⟨res, hres, by rw [hl, writeXsPtrs_length], fun j => ?_⟩
    rw [hj j, writeXsPtrs_getElem?]
    simp only [Int.toNat_ofNat]
    by_cases hjk : j = k
    · subst hjk
      simp [hk3]
    · by_cases hlt : k ≤ j ∧ (j : Int) < n_isotopes * n_gridpoints
      · have : k + 1 ≤ j ∧ (j : Int) < n_isotopes * n_gridpoints := ⟨by omega, hlt.2⟩
        rw [if_pos this, if_pos hlt, if_neg hjk]
      · have : ¬ (k + 1 ≤ j ∧ (j : Int) < n_isotopes * n_gridpoints) := by
          intro h
          exact hlt ⟨by omega, h.2⟩
        rw [if_neg this, if_neg hlt, if_neg hjk]

/-- When the product of the sizes is a non-negative `int`, the byte count does
not wrap and the allocator serves the request, the block has exactly
`n_isotopes*n_gridpoints` entries. -/
theorem mallocGrid_spec (h : Helpers R T P) (n_isotopes n_gridpoints : Int)
    (hN0 : 0 ≤ n_isotopes * n_gridpoints) (hN : n_isotopes * n_gridpoints ≤ INT_MAX)
    (hs : 0 < h.sizeof_GridPoint)
    (hbytes : (n_isotopes * n_gridpoints).toNat * h.sizeof_GridPoint < 2 ^ 64)
    (hm : h.malloc_ok ((n_isotopes * n_gridpoints).toNat * h.sizeof_GridPoint) = true) :
    mallocGrid h n_isotopes n_gridpoints
      = (List.range (n_isotopes * n_gridpoints).toNat).map h.heap := by
  unfold INT_MAX at hN
  have hw : wrapLong (n_isotopes * n_gridpoints) = n_isotopes * n_gridpoints :=
    wrapLong_eq _ (by omega) (by omega)
  have hmod : (n_isotopes * n_gridpoints) % 2 ^ 64 = n_isotopes * n_gridpoints := by
    apply Int.emod_eq_of_lt <;> omega
  have hb : mallocBytes h.sizeof_GridPoint n_isotopes n_gridpoints
      = (n_isotopes * n_gridpoints).toNat * h.sizeof_GridPoint := by
    unfold mallocBytes
    rw [hw, hmod]
    exact Nat.mod_eq_of_lt hbytes
  unfold mallocGrid
  rw [hb, hm, if_pos rfl, Nat.mul_div_cancel _ hs]

/-- Under the range conditions the grid framework is built without a store
outside the block, and entry `i` exists exactly for `i < n_isotopes*n_gridpoints`
and holds `xs_ptrs = i*n_isotopes`. -/
theorem binaryReadGrid_spec (h : Helpers R T P) (n_isotopes n_gridpoints : Int)
    (hi : 0 < n_isotopes) (hg : 0 < n_gridpoints)
    (hN : n_isotopes * n_gridpoints ≤ INT_MAX)
    (hs : 0 < h.sizeof_GridPoint)
    (hbytes : (n_isotopes * n_gridpoints).toNat * h.sizeof_GridPoint < 2 ^ 64)
    (hm : h.malloc_ok ((n_isotopes * n_gridpoints).toNat * h.sizeof_GridPoint) = true)
    (hx : 0 < h.xs_ptrs_bits)
    (hxs : (n_isotopes * n_gridpoints - 1) * n_isotopes < 2 ^ (h.xs_ptrs_bits - 1)) :
    ∃ grid, binaryReadGrid h n_isotopes n_gridpoints = some grid
      ∧ grid.length = (n_isotopes * n_gridpoints).toNat
      ∧ ∀ i : Nat, grid[i]?
          = if (i : Int) < n_isotopes * n_gridpoints
            then some { h.heap i with xs_ptrs := (i : Int) * n_isotopes } else none := by
  have hN0 : 0 < n_isotopes * n_gridpoints := Int.mul_pos hi hg
  have hmg := mallocGrid_spec h n_isotopes n_gridpoints (le_of_lt hN0) hN hs hbytes hm
  obtain ⟨res, hres, hl, hj⟩ := initXsPtrs_spec h.xs_ptrs_bits n_isotopes n_gridpoints hN
    (le_of_lt hN0) (n_isotopes * n_gridpoints - (0 : Nat)).toNat 0
    (mallocGrid h n_isotopes n_gridpoints) rfl (by simpa using le_of_lt hN0)
    (by rw [hmg]; simp)
  refine ⟨res, hres, by rw [hl, hmg]; simp, fun i => ?_⟩
  rw [hj i, hmg]
  by_cases hlt : (i : Int) < n_isotopes * n_gridpoints
  · have hlt2 : i < (n_isotopes * n_gridpoints).toNat := by omega
    have hle : n_isotopes ≤ n_isotopes * n_gridpoints := by nlinarith
    have hv1 : (0 : Int) ≤ (i : Int) * n_isotopes := mul_nonneg (by omega) (le_of_lt hi)
    have hv2 : (i : Int) * n_isotopes ≤ (n_isotopes * n_gridpoints - 1) * n_isotopes :=
      mul_le_mul_of_nonneg_right (by omega) (le_of_lt hi)
    have hv3 : (i : Int) * n_isotopes < 2 ^ 63 := by
      unfold INT_MAX at hN
      have h1 : (i : Int) * n_isotopes ≤ (2 ^ 31) * n_isotopes :=
        mul_le_mul_of_nonneg_right (by omega) (le_of_lt hi)
      have h2 : (2 : Int) ^ 31 * n_isotopes ≤ 2 ^ 31 * 2 ^ 31 :=
        mul_le_mul_of_nonneg_left (by omega) (by norm_num)
      have h3 : (2 : Int) ^ 31 * 2 ^ 31 < 2 ^ 63 := by norm_num
      omega
    have hw : wrapBits h.xs_ptrs_bits (wrapLong ((i : Int) * n_isotopes))
        = (i : Int) * n_isotopes := by
      rw [wrapLong_eq _ (by omega) hv3]
      exact wrapBits_eq _ _ hx hv1 (lt_of_le_of_lt hv2 hxs)
    simp [hlt, hlt2, hw]
  · have hlt2 : (n_isotopes * n_gridpoints).toNat ≤ i := by omega
    have hlt3 : n_isotopes * n_gridpoints ≤ (i : Int) := not_lt.1 hlt
    simp [hlt, hlt2]

/-- Claim C8 fails as stated for positive sizes outside the range of the machine
types.  With `n_isotopes = 3` and `n_gridpoints = 6148914691236517206` the `long`
product is `2^64 + 2` and wraps to 2, so the grid framework has 2 entries, not
`n_isotopes*n_gridpoints`; and with sizes 2 and 3 and an allocator that fails,
the first store goes through the null pointer. -/
theorem C8_overflow_counterexample :
    ((0 : Int) < 3 ∧ (0 : Int) < 6148914691236517206)
    ∧ (binaryReadGrid toyHelpers 3 6148914691236517206).map List.length = some 2
    ∧ ((2 : Nat) : Int) ≠ 3 * 6148914691236517206
    ∧ ((0 : Int) < 2 ∧ (0 : Int) < 3)
    ∧ binaryReadGrid toyHelpersNoHeap 2 3 = none := by
  have hw : wrapLong (3 * 6148914691236517206) = 2 := by decide
  have hmg : mallocGrid toyHelpers 3 6148914691236517206 = [⟨7, -1⟩, ⟨8, -1⟩] := by
    have hw2 : wrapLong 18446744073709551618 = 2 := by decide
    simp [mallocGrid, mallocBytes, hw2, toyHelpers, List.range_succ]
  refine ⟨by decide, ?_, by decide, by decide, ?_⟩
  · unfold binaryReadGrid
    rw [hmg]
    rw [initXsPtrs_step _ _ _ _ _ (by rw [hw]; decide) (by decide)]
    have e1 : wrapInt (0 + 1) = 1 := by decide
    rw [e1]
    simp only [Int.toNat_zero, writeXsPtrs]
    rw [initXsPtrs_step _ _ _ _ _ (by rw [hw]; decide) (by decide)]
    have e2 : wrapInt (1 + 1) = 2 := by decide
    rw [e2]
    rw [initXsPtrs_exit _ _ _ _ _ (by rw [hw]; decide)]
    rfl
  · unfold binaryReadGrid
    have hmg2 : mallocGrid toyHelpersNoHeap 2 3 = [] := by
      simp [mallocGrid, mallocBytes, wrapLong, toyHelpersNoHeap, toyHelpers]
    rw [hmg2]
    exact initXsPtrs_fault _ _ _ _ _ (by decide) (by decide)

/-- Claim C8 (amended): on the cache-read path, for positive sizes whose product
`n_isotopes*n_gridpoints` fits an `int`, whose byte count
`n_isotopes*n_gridpoints*sizeof(GridPoint)` is below 2^64 and is served by
`malloc`, and whose largest offset `(n_isotopes*n_gridpoints-1)*n_isotopes` fits
the field `xs_ptrs`, `main` builds without a store outside the block a grid
framework of exactly `n_isotopes*n_gridpoints` entries, entry `i` has
`xs_ptrs = i*n_isotopes`, this grid is what `binary_read` is handed, and the index
blocks `[xs_ptrs, xs_ptrs + n_isotopes)` of distinct entries are disjoint, lie
inside the flat index array of length `n_isotopes*n_isotopes*n_gridpoints`, and
cover it. -/
theorem C8_binary_read_index_blocks_partition (h : Helpers R T P) (b : Build) (cfg : Config)
    (hb : b.binary_read = true) (hi : 0 < cfg.n_isotopes) (hg : 0 < cfg.n_gridpoints)
    (hN : cfg.n_isotopes * cfg.n_gridpoints ≤ INT_MAX)
    (hs : 0 < h.sizeof_GridPoint)
    (hbytes : (cfg.n_isotopes * cfg.n_gridpoints).toNat * h.sizeof_GridPoint < 2 ^ 64)
    (hm : h.malloc_ok ((cfg.n_isotopes * cfg.n_gridpoints).toNat * h.sizeof_GridPoint) = true)
    (hx : 0 < h.xs_ptrs_bits)
    (hxs : (cfg.n_isotopes * cfg.n_gridpoints - 1) * cfg.n_isotopes
        < 2 ^ (h.xs_ptrs_bits - 1)) :
    ∃ grid : List (GridPoint R),
      binaryReadGrid h cfg.n_isotopes cfg.n_gridpoints = some grid
      ∧ (setup b h cfg).data.map (fun sd => sd.energy_grid)
          = some (h.binary_read cfg.n_isotopes cfg.n_gridpoints (generatedTables b h cfg) grid
              (h.generate_ptr_grid cfg.n_isotopes cfg.n_gridpoints)).2.1
      ∧ (grid.length : Int) = cfg.n_isotopes * cfg.n_gridpoints
      ∧ (∀ (i : Nat) (p : GridPoint R), grid[i]? = some p →
          p.xs_ptrs = (i : Int) * cfg.n_isotopes)
      ∧ (∀ (i j : Nat) (p q : GridPoint R), grid[i]? = some p → grid[j]? = some q →
          i ≠ j → ∀ a : Int, ¬ (inBlock cfg.n_isotopes p a ∧ inBlock cfg.n_isotopes q a))
      ∧ (∀ (i : Nat) (p : GridPoint R) (a : Int), grid[i]? = some p →
          inBlock cfg.n_isotopes p a →
          0 ≤ a ∧ a < gridPtrsLen cfg.n_isotopes cfg.n_gridpoints)
      ∧ (∀ a : Int, 0 ≤ a → a < gridPtrsLen cfg.n_isotopes cfg.n_gridpoints →
          ∃ (i : Nat) (p : GridPoint R), grid[i]? = some p ∧ inBlock cfg.n_isotopes p a) := by
  obtain ⟨grid, hgrid, hlen, hget⟩ := binaryReadGrid_spec h cfg.n_isotopes cfg.n_gridpoints
    hi hg hN hs hbytes hm hx hxs
  have hN0 : 0 < cfg.n_isotopes * cfg.n_gridpoints := Int.mul_pos hi hg
  have entry : ∀ (i : Nat) (p : GridPoint R), grid[i]? = some p →
      (i : Int) < cfg.n_isotopes * cfg.n_gridpoints ∧ p.xs_ptrs = (i : Int) * cfg.n_isotopes := by
    intro i p hp
    rw [hget] at hp
    by_cases hlt : (i : Int) < cfg.n_isotopes * cfg.n_gridpoints
    · rw [if_pos hlt] at hp
      have := Option.some.inj hp
      exact ⟨hlt, by rw [← this]⟩
    · rw [if_neg hlt] at hp
      cases hp
  refine ⟨grid, hgrid, ?_, ?_, fun i p hp => (entry i p hp).2, ?_, ?_, ?_⟩
  · simp only [setup, gridPhase, hb, if_true, call_malloc_energy_grid, hgrid]
    rfl
  · rw [hlen]
    exact Int.toNat_of_nonneg (le_of_lt hN0)
  · intro i j p q hp hq hij a hab
    obtain ⟨⟨hp1, hp2⟩, hq1, hq2⟩ := hab
    rw [(entry i p hp).2] at hp1 hp2
    rw [(entry j q hq).2] at hq1 hq2
    rcases Nat.lt_or_gt_of_ne hij with hlt | hlt
    · have : ((i : Int) + 1) * cfg.n_isotopes ≤ (j : Int) * cfg.n_isotopes :=
        mul_le_mul_of_nonneg_right (by omega) (le_of_lt hi)
      nlinarith
    · have : ((j : Int) + 1) * cfg.n_isotopes ≤ (i : Int) * cfg.n_isotopes :=
        mul_le_mul_of_nonneg_right (by omega) (le_of_lt hi)
      nlinarith
  · intro i p a hp hab
    obtain ⟨hp1, hp2⟩ := hab
    obtain ⟨hlt, hxp⟩ := entry i p hp
    rw [hxp] at hp1 hp2
    unfold gridPtrsLen
    have h0 : (0 : Int) ≤ (i : Int) * cfg.n_isotopes :=
      mul_nonneg (by omega) (le_of_lt hi)
    have h1 : ((i : Int) + 1) * cfg.n_isotopes
        ≤ (cfg.n_isotopes * cfg.n_gridpoints) * cfg.n_isotopes :=
      mul_le_mul_of_nonneg_right (by omega) (le_of_lt hi)
    constructor
    · omega
    · nlinarith
  · intro a ha0 ha1
    unfold gridPtrsLen at ha1
    have hq0 : 0 ≤ a / cfg.n_isotopes := Int.ediv_nonneg ha0 (le_of_lt hi)
    have hq1 : a / cfg.n_isotopes < cfg.n_isotopes * cfg.n_gridpoints := by
      apply Int.ediv_lt_of_lt_mul hi
      nlinarith
    have hcast : (((a / cfg.n_isotopes).toNat : Nat) : Int) = a / cfg.n_isotopes :=
      Int.toNat_of_nonneg hq0
    refine ⟨(a / cfg.n_isotopes).toNat,
      { h.heap (a / cfg.n_isotopes).toNat with
          xs_ptrs := ((a / cfg.n_isotopes).toNat : Int) * cfg.n_isotopes }, ?_, ?_⟩
    · rw [hget, if_pos (by rw [hcast]; exact hq1)]
    · unfold inBlock
      simp only [hcast]
      have hm1 := Int.emod_add_ediv a cfg.n_isotopes
      have hm0 := Int.emod_nonneg a (ne_of_gt hi)
      have hm2 := Int.emod_lt_of_pos a hi
      constructor <;> nlinarith

/-- Witness of claim C8 (amended): two isotopes, three grid points, 16-byte
entries, 32-bit `xs_ptrs`. -/
theorem C8_binary_read_index_blocks_partition_witness :
    ((0 : Int) < 2 ∧ (0 : Int) < 3 ∧ (2 : Int) * 3 ≤ INT_MAX)
    ∧ ∃ grid : List (GridPoint Nat),
        binaryReadGrid toyHelpers 2 3 = some grid
        ∧ (grid.length : Int) = 2 * 3
        ∧ (∀ (i : Nat) (p : GridPoint Nat), grid[i]? = some p → p.xs_ptrs = (i : Int) * 2) :=
  have h := C8_binary_read_index_blocks_partition toyHelpers ⟨false, false, true, false⟩
    ⟨1, 2, 3, 0⟩ rfl (by decide) (by decide) (by decide) (by decide) (by decide) (by decide)
    (by decide) (by decide)
  ⟨by decide, h.elim (fun grid hg => ⟨grid, hg.1, hg.2.2.1, hg.2.2.2.1⟩)⟩


/-! ## The verification-mode region under interleaving -/

theorem sum_map_set {α : Type} (f : α → Nat) :
    ∀ (l : List α) (w : Nat) (a c : α), l[w]? = some a →
      ((l.set w c).map f).sum + f a = (l.map f).sum + f c := by
  intro l
  induction l with
  | nil => intro w a c h; simp at h
  | cons p ps ih =>
    intro w a c h
    cases w with
    | zero =>
      simp at h
      subst h
      simp
      omega
    | succ w =>
      simp only [List.getElem?_cons_succ] at h
      have := ih w a c h
      simp only [List.set_cons_succ, List.map_cons, List.sum_cons]
      omega

theorem streamSum_succ (x : Ext R X T P) (sd : Static R T P) (n : Nat) :
    streamSum x sd (n + 1) = streamSum x sd n + streamDigest x sd n := by
  simp [streamSum, List.range_succ]

theorem parInv_init (x : Ext R X T P) (sd : Static R T P) (lookups : Int) (junk : Junk R)
    (n : Nat) : ParInv x sd lookups (ParState.init junk n) := by
  refine ⟨by simp [ParState.init], by simp [ParState.init], by simp [ParState.init], ?_, ?_⟩
  · have : pendingSum x sd (ParState.init junk n).workers = 0 := by
      simp [pendingSum, ParState.init]
    rw [this]
    simp [ParState.init, streamSum]
  · simp [ParState.init, U64]

theorem parInv_step (x : Ext R X T P) (sd : Static R T P) (lookups : Int) (st st1 : ParState R)
    (e : Event) (hi : ParInv x sd lookups st) (hs : parStep x sd lookups st e = some st1) :
    ParInv x sd lookups st1 := by
  obtain ⟨hnd, hrange, hcalls, hsum, hlt⟩ := hi
  cases e with
  | enter w i =>
    unfold parStep at hs
    cases hw : st.workers[w]? with
    | none => simp [hw] at hs
    | some wk =>
      simp only [hw] at hs
      split at hs
      · rename_i hc
        obtain ⟨hp, h0, h1, hni⟩ := hc
        have hs1 := Option.some.inj hs
        subst hs1
        have hset := sum_map_set
          (fun wk : Worker R => if wk.pending then vhash_local x sd wk.p_energy.val wk.mat.val
            else 0)
          st.workers w wk
          ⟨⟨(critical x st.rnv_calls).1, true⟩, ⟨(critical x st.rnv_calls).2.1, true⟩, true⟩ hw
        simp only [hp, Bool.false_eq_true, if_false, if_true, Nat.add_zero] at hset
        refine ⟨List.nodup_cons.2 ⟨hni, hnd⟩, ?_, ?_, ?_, hlt⟩
        · intro j hj
          rcases List.mem_cons.1 hj with h | h
          · rw [h]; exact ⟨h0, h1⟩
          · exact hrange j h
        · simp [critical, hcalls]
          omega
        · simp only [List.length_cons]
          rw [streamSum_succ]
          unfold pendingSum
          rw [hset]
          have hd : vhash_local x sd (critical x st.rnv_calls).1 (critical x st.rnv_calls).2.1
              = streamDigest x sd st.started.length := by
            simp [critical, streamDigest, hcalls]
          rw [hd]
          unfold pendingSum at hsum
          rw [← Nat.add_assoc, Nat.add_mod, hsum, ← Nat.add_mod]
      · cases hs
  | add w =>
    unfold parStep at hs
    cases hw : st.workers[w]? with
    | none => simp [hw] at hs
    | some wk =>
      simp only [hw] at hs
      split at hs
      · rename_i hp
        have hs1 := Option.some.inj hs
        subst hs1
        have hset := sum_map_set
          (fun wk : Worker R => if wk.pending then vhash_local x sd wk.p_energy.val wk.mat.val
            else 0)
          st.workers w wk { wk with pending := false } hw
        simp only [hp, Bool.false_eq_true, if_false, if_true, Nat.add_zero] at hset
        refine ⟨hnd, hrange, hcalls, ?_, accumulate_lt _ _⟩
        simp only
        rw [← hsum]
        unfold pendingSum accumulate
        rw [← hset, Nat.mod_add_mod]
        congr 1
        omega
      · cases hs

theorem parInv_run (x : Ext R X T P) (sd : Static R T P) (lookups : Int) :
    ∀ (ev : List Event) (st st1 : ParState R), ParInv x sd lookups st →
      parRun x sd lookups st ev = some st1 → ParInv x sd lookups st1 := by
  intro ev
  induction ev with
  | nil =>
    intro st st1 hi hr
    simp [parRun] at hr
    subst hr
    exact hi
  | cons e es ih =>
    intro st st1 hi hr
    unfold parRun at hr
    cases hs : parStep x sd lookups st e with
    | none => simp [hs] at hr
    | some st2 =>
      simp only [hs] at hr
      exact ih st2 st1 (parInv_step x sd lookups st st2 e hi hs) hr

/-- In a finished state no digest is owed and exactly `lookups` trials were
started. -/
theorem finished_facts (x : Ext R X T P) (sd : Static R T P) (lookups : Int) (st : ParState R)
    (hi : ParInv x sd lookups st) (hf : st.finished lookups = true) :
    pendingSum x sd st.workers = 0 ∧ st.started.length = lookups.toNat := by
  unfold ParState.finished at hf
  rw [Bool.and_eq_true, List.all_eq_true, List.all_eq_true] at hf
  obtain ⟨hw, hk⟩ := hf
  constructor
  · unfold pendingSum
    apply List.sum_eq_zero
    intro v hv
    obtain ⟨wk, hwk, rfl⟩ := List.mem_map.1 hv
    have := hw wk hwk
    simp at this
    simp [this]
  · obtain ⟨hnd, hrange, _, _, _⟩ := hi
    have hnd2 : ((List.range lookups.toNat).map Int.ofNat).Nodup :=
      (List.nodup_range _).map (fun a c h => Int.ofNat.inj h)
    have hperm : st.started.Perm ((List.range lookups.toNat).map Int.ofNat) := by
      rw [List.perm_ext_iff_of_nodup hnd hnd2]
      intro a
      constructor
      · intro ha
        obtain ⟨h0, h1⟩ := hrange a ha
        refine List.mem_map.2 ⟨a.toNat, List.mem_range.2 (by omega), ?_⟩
        exact Int.toNat_of_nonneg h0
      · intro ha
        obtain ⟨k, hk1, rfl⟩ := List.mem_map.1 ha
        have := hk k hk1
        simpa using this
    rw [hperm.length_eq]
    simp

/-- The checksum of every finished execution. -/
theorem finished_vhash (x : Ext R X T P) (sd : Static R T P) (lookups : Int) (junk : Junk R)
    (n : Nat) (ev : List Event) (s : ParState R)
    (hr : parRun x sd lookups (ParState.init junk n) ev = some s)
    (hf : s.finished lookups = true) :
    s.vhash = streamSum x sd lookups.toNat % U64 := by
  have hi := parInv_run x sd lookups ev _ s (parInv_init x sd lookups junk n) hr
  obtain ⟨hp, hl⟩ := finished_facts x sd lookups s hi hf
  obtain ⟨_, _, _, hsum, hlt⟩ := hi
  rw [hp, hl, Nat.add_zero, Nat.mod_eq_of_lt hlt] at hsum
  exact hsum


theorem parStep_enter_ok (x : Ext R X T P) (sd : Static R T P) (lookups : Int)
    (st : ParState R) (w : Nat) (i : Int) (wk : Worker R) (hwk : st.workers[w]? = some wk)
    (hcond : wk.pending = false ∧ 0 ≤ i ∧ i < lookups ∧ i ∉ st.started) :
    parStep x sd lookups st (Event.enter w i) = some
      { st with
        workers := st.workers.set w
          ⟨⟨(critical x st.rnv_calls).1, true⟩, ⟨(critical x st.rnv_calls).2.1, true⟩, true⟩
        rnv_calls := (critical x st.rnv_calls).2.2
        started := i :: st.started } := by
  unfold parStep
  simp only [hwk]
  rw [if_pos hcond]

theorem parStep_add_ok (x : Ext R X T P) (sd : Static R T P) (lookups : Int)
    (st : ParState R) (w : Nat) (wk : Worker R) (hwk : st.workers[w]? = some wk)
    (hp : wk.pending = true) :
    parStep x sd lookups st (Event.add w) = some
      { st with
        workers := st.workers.set w { wk with pending := false }
        vhash := accumulate st.vhash (vhash_local x sd wk.p_energy.val wk.mat.val) } := by
  unfold parStep
  simp only [hwk]
  rw [if_pos hp]

/-- One trial done by worker 0 alone: from a state in which worker 0 exists, no
worker owes a digest and index `k` is free, the critical section followed by the
atomic update is possible and leads to a state of the same kind with `k` handed
out. -/
theorem seq_trial (x : Ext R X T P) (sd : Static R T P) (lookups : Int) (k : Nat)
    (st : ParState R) (hw : ∀ wk ∈ st.workers, wk.pending = false)
    (hlen : 0 < st.workers.length) (hk : (k : Int) < lookups)
    (hfree : (Int.ofNat k) ∉ st.started) :
    ∃ st1 st2, parStep x sd lookups st (Event.enter 0 (Int.ofNat k)) = some st1
      ∧ parStep x sd lookups st1 (Event.add 0) = some st2
      ∧ (∀ wk ∈ st2.workers, wk.pending = false)
      ∧ st2.workers.length = st.workers.length
      ∧ st2.started = Int.ofNat k :: st.started := by
  obtain ⟨wk, hwk⟩ : ∃ wk, st.workers[0]? = some wk := by
    cases hws : st.workers with
    | nil => rw [hws] at hlen; simp at hlen
    | cons a as => exact ⟨a, by simp⟩
  have hpend := hw wk (List.getElem?_mem hwk)
  have hstep1 := parStep_enter_ok x sd lookups st 0 (Int.ofNat k) wk hwk
    ⟨hpend, Int.ofNat_nonneg k, hk, hfree⟩
  have hstep2 := parStep_add_ok x sd lookups
    { st with
      workers := st.workers.set 0
        ⟨⟨(critical x st.rnv_calls).1, true⟩, ⟨(critical x st.rnv_calls).2.1, true⟩, true⟩
      rnv_calls := (critical x st.rnv_calls).2.2
      started := Int.ofNat k :: st.started }
    0 ⟨⟨(critical x st.rnv_calls).1, true⟩, ⟨(critical x st.rnv_calls).2.1, true⟩, true⟩
    (List.getElem?_set_self hlen) rfl
  refine ⟨_, _, hstep1, hstep2, ?_, ?_, ?_⟩
  · intro w hwmem
    simp only [List.set_set] at hwmem
    rcases List.mem_or_eq_of_mem_set hwmem with h1 | h1
    · exact hw w h1
    · rw [h1]
  · simp
  · rfl

/-- Worker 0 alone can finish the region: from a state in which no worker owes
a digest and exactly the indices below `k` were handed out, the sequential
schedule for the remaining `m` trials runs and ends finished. -/
theorem seqSchedule_finishes (x : Ext R X T P) (sd : Static R T P) (lookups : Int) :
    ∀ (m k : Nat) (st : ParState R), k + m = lookups.toNat →
      (∀ wk ∈ st.workers, wk.pending = false) → 0 < st.workers.length →
      (∀ i ∈ st.started, i < (k : Int)) → (∀ j : Nat, j < k → (j : Int) ∈ st.started) →
      ∃ s, parRun x sd lookups st (seqSchedule k m) = some s ∧ s.finished lookups = true := by
  intro m
  induction m with
  | zero =>
    intro k st hk hw _ _ hall
    refine ⟨st, rfl, ?_⟩
    unfold ParState.finished
    rw [Bool.and_eq_true, List.all_eq_true, List.all_eq_true]
    constructor
    · intro wk hwk
      simp [hw wk hwk]
    · intro j hj
      have := hall j (by have := List.mem_range.1 hj; omega)
      simpa using this
  | succ m ih =>
    intro k st hk hw hlen hlt hall
    have hnotin : (Int.ofNat k) ∉ st.started := by
      intro hmem
      have := hlt _ hmem
      simp at this
    obtain ⟨st1, st2, h1, h2, hw2, hlen2, hst2⟩ :=
      seq_trial x sd lookups k st hw hlen (by omega) hnotin
    obtain ⟨s, hs, hf⟩ := ih (k + 1) st2 (by omega) hw2 (by omega)
      (by
        intro i hi
        rw [hst2] at hi
        rcases List.mem_cons.1 hi with h | h
        · rw [h]
          push_cast
          simp
        · have := hlt i h
          push_cast
          omega)
      (by
        intro j hj
        rw [hst2]
        rcases Nat.lt_succ_iff_lt_or_eq.1 hj with h | h
        · exact List.mem_cons_of_mem _ (hall j h)
        · rw [h]
          exact List.mem_cons_self _ _)
    refine ⟨s, ?_, hf⟩
    unfold seqSchedule parRun
    simp only [h1]
    unfold parRun
    simp only [h2]
    exact hs

theorem streamSum_le (x : Ext R X T P) (sd : Static R T P) (n : Nat)
    (hd : ∀ e m v, x.digest e m v < 10000) : streamSum x sd n ≤ 9999 * n := by
  have h := sum_le_of_forall_le ((List.range n).map (streamDigest x sd)) 9999 (by
    intro d hdm
    obtain ⟨k, _, rfl⟩ := List.mem_map.1 hdm
    unfold streamDigest vhash_local
    have h1 := hd (x.stream (2 * k)) (x.pick_mat (x.stream (2 * k + 1)))
      (x.calculate_macro_xs (x.stream (2 * k)) (x.pick_mat (x.stream (2 * k + 1))) sd)
    have h2 := Nat.mod_le (x.digest (x.stream (2 * k)) (x.pick_mat (x.stream (2 * k + 1)))
      (x.calculate_macro_xs (x.stream (2 * k)) (x.pick_mat (x.stream (2 * k + 1))) sd)) U64
    omega)
  simpa [streamSum] using h

/-- Claim C2: in the verification-mode OpenMP region, for a fixed shared stream and fixed
static data, every finished execution (any number of workers, any assignment of
trial indices to workers, any interleaving of critical sections and atomic
updates) ends with the same checksum: the sum, in 64-bit unsigned arithmetic, over
`k` in `[0, lookups)` of the digest of `(stream[2k], pick_mat(stream[2k+1]))` and
its evaluation; when the digests are below 10000 and `lookups < 2^31` this is the
exact sum.  With at least one worker a finished execution exists. -/
theorem C2_checksum_independent_of_schedule (x : Ext R X T P) (sd : Static R T P)
    (lookups : Int) :
    (∀ (junk : Junk R) (n : Nat), 0 < n →
        ∃ ev s, parRun x sd lookups (ParState.init junk n) ev = some s
          ∧ s.finished lookups = true)
    ∧ (∀ (junk : Junk R) (n : Nat) (ev : List Event) (s : ParState R),
        parRun x sd lookups (ParState.init junk n) ev = some s → s.finished lookups = true →
        s.vhash = streamSum x sd lookups.toNat % 2 ^ 64
        ∧ ((∀ e m v, x.digest e m v < 10000) → lookups < 2 ^ 31 →
            s.vhash = streamSum x sd lookups.toNat))
    ∧ (∀ (junk1 junk2 : Junk R) (n1 n2 : Nat) (ev1 ev2 : List Event) (s1 s2 : ParState R),
        parRun x sd lookups (ParState.init junk1 n1) ev1 = some s1 →
        s1.finished lookups = true →
        parRun x sd lookups (ParState.init junk2 n2) ev2 = some s2 →
        s2.finished lookups = true →
        s1.vhash = s2.vhash) := by
  refine ⟨?_, ?_, ?_⟩
  · intro junk n hn
    exact ⟨seqSchedule 0 lookups.toNat,
      seqSchedule_finishes x sd lookups lookups.toNat 0 (ParState.init junk n) (by omega)
        (by
          intro wk hwk
          simp only [ParState.init] at hwk
          rw [(List.mem_replicate.1 hwk).2])
        (by simpa [ParState.init] using hn)
        (by simp [ParState.init])
        (by intro j hj; omega)⟩
  · intro junk n ev s hr hf
    have hv := finished_vhash x sd lookups junk n ev s hr hf
    refine ⟨hv, ?_⟩
    intro hd hl
    rw [hv]
    apply Nat.mod_eq_of_lt
    have := streamSum_le x sd lookups.toNat hd
    unfold U64
    omega
  · intro junk1 junk2 n1 n2 ev1 ev2 s1 s2 h1 f1 h2 f2
    rw [finished_vhash x sd lookups junk1 n1 ev1 s1 h1 f1,
      finished_vhash x sd lookups junk2 n2 ev2 s2 h2 f2]

/-- Witness of claim C2: three lookups on the toy instance, once with two workers whose
trials interleave and are taken out of index order, once with one worker. -/
theorem C2_checksum_independent_of_schedule_witness :
    (parRun toyExt toyStatic 3 (ParState.init toyJunk 2)
        [Event.enter 0 2, Event.enter 1 0, Event.add 1, Event.enter 1 1, Event.add 0,
          Event.add 1]).map (fun s => (s.vhash, s.finished 3)) = some (174, true)
    ∧ (parRun toyExt toyStatic 3 (ParState.init toyJunk 1)
        (seqSchedule 0 3)).map (fun s => (s.vhash, s.finished 3)) = some (174, true)
    ∧ (∀ s1 s2 : ParState Nat,
        parRun toyExt toyStatic 3 (ParState.init toyJunk 2)
          [Event.enter 0 2, Event.enter 1 0, Event.add 1, Event.enter 1 1, Event.add 0,
            Event.add 1] = some s1 →
        s1.finished 3 = true →
        parRun toyExt toyStatic 3 (ParState.init toyJunk 1) (seqSchedule 0 3) = some s2 →
        s2.finished 3 = true →
        s1.vhash = s2.vhash) :=
  ⟨by decide, by decide,
    fun s1 s2 => (C2_checksum_independent_of_schedule toyExt toyStatic 3).2.2 toyJunk toyJunk 2 1
      [Event.enter 0 2, Event.enter 1 0, Event.add 1, Event.enter 1 1, Event.add 0, Event.add 1]
      (seqSchedule 0 3) s1 s2⟩


end Proofs

end XSBench
